import Mathlib

/-!
# PokéCache client controller (`static/js/main.js`)

A shallow embedding of the browser-side controller: the formatting code of the
table columns and of the detail modal, and the request / response handlers as
functions on an explicit page state with an effect log.

* JavaScript strings are sequences of UTF-16 code units (`JsString`).
* JavaScript numbers are the finite IEEE-754 binary64 values.  Every finite
  double is an integer multiple of `2 ^ (-1074)`, so a number is stored as that
  integer (`JsNum.units`).  Division rounds to nearest, ties to even, and
  `JsNum.toString` is the shortest round-trip conversion of ECMAScript
  `Number::toString`.  The sign of zero is not represented (it is not observable
  through the operations used by the program).
* `String.prototype.toUpperCase` is a builtin that is not part of the
  repository; it is a parameter `toUpperCase` of the definitions that call it.
-/

namespace PokeCache

/-! ## Strings -/

/-- A JavaScript string: its sequence of UTF-16 code units. -/
abbrev JsString := List Nat

/-- The JavaScript string written as a literal with characters of the basic plane. -/
def js (s : String) : JsString := s.toList.map Char.toNat

/-- The method `String.prototype.charAt`: the one-unit string at `i`, or the empty string. -/
def charAt (s : JsString) (i : Nat) : JsString := (s.drop i).take 1

/-- The method `String.prototype.slice` with one non-negative argument. -/
def slice (s : JsString) (start : Nat) : JsString := s.drop start

/-- The method `Array.prototype.join` on an array of strings. -/
def join (sep : JsString) (xs : List JsString) : JsString := List.intercalate sep xs

/-- An ASCII-only upper-casing function, used to instantiate `toUpperCase` in examples. -/
def asciiUpper (s : JsString) : JsString :=
  s.map (fun c => if 97 ≤ c ∧ c ≤ 122 then c - 32 else c)

/-! ## Numbers -/

/-- The number of units in `1`: a finite double is an integer multiple of `2 ^ (-1074)`. -/
def scale : Nat := 2 ^ 1074

/-- Binary search for the position of the leading bit: `acc` is a known lower bound,
`b` the number of exponent bits still to decide. -/
def log2Aux (n : Nat) : Nat → Nat → Nat
  | 0, acc => acc
  | b + 1, acc =>
    if 2 ^ (acc + 2 ^ b) ≤ n then log2Aux n b (acc + 2 ^ b) else log2Aux n b acc

/-- The position of the leading bit of `n` (for `0 < n < 2 ^ 4096`). -/
def log2 (n : Nat) : Nat := log2Aux n 12 0

/-- Round-to-nearest, ties-to-even, of the positive rational `a / b` (in units) to the
binary64 grid: numbers below `2 ^ 53` units are spaced by one unit, a number with leading
bit `l ≥ 53` lies on the grid of spacing `2 ^ (l - 52)`. -/
def roundNearestEven (a b : Nat) : Nat :=
  let sh := log2 (a / b) - 52
  let d := b * 2 ^ sh
  let q := a / d
  let r := a % d
  if 2 * r < d then q * 2 ^ sh
  else if d < 2 * r then (q + 1) * 2 ^ sh
  else if q % 2 = 0 then q * 2 ^ sh
  else (q + 1) * 2 ^ sh

/-- A finite JavaScript number, stored as its multiple of `2 ^ (-1074)`. -/
structure JsNum where
  units : Int
deriving DecidableEq

/-- The mathematical value of a number. -/
def JsNum.toRat (x : JsNum) : ℚ := x.units / scale

/-- The number with an integer value (exact below `2 ^ 53` in magnitude). -/
def JsNum.ofInt (i : Int) : JsNum := ⟨i * scale⟩

/-- The numeric literal `1.5`. -/
def JsNum.onePointFive : JsNum := ⟨((3 * 2 ^ 1073 : Nat) : Int)⟩

/-- The operator `/` on finite numbers with a non-zero divisor and a finite quotient
(the program divides only by the literals `10` and `1.5`). -/
def JsNum.div (x y : JsNum) : JsNum :=
  ⟨x.units.sign * y.units.sign * roundNearestEven (x.units.natAbs * scale) y.units.natAbs⟩

/-- The function `Math.min` on two finite numbers. -/
def JsNum.min (x y : JsNum) : JsNum := if x.units ≤ y.units then x else y

/-- Decimal digits of `n`, most significant first, pushed in front of `acc`. -/
def digitsAux : Nat → Nat → JsString → JsString
  | 0, _, acc => acc
  | f + 1, n, acc =>
    if n < 10 then (48 + n) :: acc else digitsAux f (n / 10) ((48 + n % 10) :: acc)

/-- The decimal representation of a natural number. -/
def natToString (n : Nat) : JsString := digitsAux (n + 1) n []

/-- For `0 < N < scale`: the number of zeros between the decimal point and the first
non-zero digit of `N / scale`. -/
def leadingZeros : Nat → Nat → Nat → Nat
  | 0, _, z => z
  | f + 1, N, z => if scale ≤ N * 10 then z else leadingZeros f (N * 10) (z + 1)

/-- The decimal exponent `n` of a positive number of `N` units:
`10 ^ (n - 1) ≤ N / scale < 10 ^ n`. -/
def decExponent (N : Nat) : Int :=
  if scale ≤ N then ((natToString (N / scale)).length : Int)
  else - (leadingZeros 400 N 0 : Int)

/-- Numerator and denominator of `10 ^ t`. -/
def pow10 (t : Int) : Nat × Nat :=
  if 0 ≤ t then (10 ^ t.toNat, 1) else (1, 10 ^ (-t).toNat)

/-- Whether the decimal `s * 10 ^ t` converts to the double of `N` units. -/
def roundTrips (N : Nat) (s : Nat) (t : Int) : Bool :=
  roundNearestEven (s * (pow10 t).1 * scale) (pow10 t).2 == N

/-- The `k`-digit decimals next to the double of `N` units (decimal exponent `p`): the
result is the pair `(n, s)` of the one that converts back to the double, the nearer one
(the even one on a tie) when both do, and `none` when neither does. -/
def pick (N : Nat) (p : Int) (k : Nat) : Option (Int × Nat) :=
  let t := p - k
  let yn := N * (pow10 t).2
  let yd := scale * (pow10 t).1
  let lo := yn / yd
  let hi := if yn % yd = 0 then lo else lo + 1
  let okLo := decide (10 ^ (k - 1) ≤ lo) && roundTrips N lo t
  let okHi := roundTrips N hi t
  let cHi : Int × Nat := if hi = 10 ^ k then (p + 1, 10 ^ (k - 1)) else (p, hi)
  if okLo && okHi then
    if yn - lo * yd < hi * yd - yn then some (p, lo)
    else if hi * yd - yn < yn - lo * yd then some cHi
    else if lo % 2 = 0 then some (p, lo) else some cHi
  else if okLo then some (p, lo)
  else if okHi then some cHi
  else none

/-- Step 5 of `Number::toString`: integers `n`, `k`, `s` with `k` as small as possible
such that `s` has `k` digits and `s * 10 ^ (n - k)` converts to the double. -/
def shortest (N : Nat) (p : Int) : Nat → Nat → Int × Nat × Nat
  | 0, k => (p, k, 0)
  | f + 1, k =>
    match pick N p k with
    | some (n, s) => (n, k, s)
    | none => shortest N p f (k + 1)

/-- A run of `n` digits `0`. -/
def zeros (n : Nat) : JsString := List.replicate n 48

/-- Steps 6 to 10 of `Number::toString`: the layout of the digits `s`. -/
def render (n : Int) (k : Nat) (s : Nat) : JsString :=
  let ds := natToString s
  if (k : Int) ≤ n ∧ n ≤ 21 then ds ++ zeros (n.toNat - k)
  else if 0 < n ∧ n ≤ 21 then ds.take n.toNat ++ js "." ++ ds.drop n.toNat
  else if -6 < n ∧ n ≤ 0 then js "0." ++ zeros (-n).toNat ++ ds
  else
    let e := n - 1
    let es := (if 0 ≤ e then js "+" else js "-") ++ natToString e.natAbs
    if k = 1 then ds ++ js "e" ++ es
    else ds.take 1 ++ js "." ++ ds.drop 1 ++ js "e" ++ es

/-- The conversion of a finite number to a string (`Number::toString`, radix 10), as
performed by a template literal. -/
def JsNum.toString (x : JsNum) : JsString :=
  if x.units = 0 then js "0"
  else
    let N := x.units.natAbs
    let r := shortest N (decExponent N) 17 1
    (if x.units < 0 then js "-" else []) ++ render r.1 r.2.1 r.2.2

/-- The exact decimal notation of `n / 10`. -/
def decimalTenths (n : Nat) : JsString :=
  natToString (n / 10) ++ (if n % 10 = 0 then [] else js "." ++ natToString (n % 10))

/-! ## Data model -/

/-- A record of the list response (`PokemonSummary`). -/
structure PokemonSummary where
  id : JsNum
  name : JsString
  image : JsString
  height : JsNum
  weight : JsNum
  types : List JsString
deriving DecidableEq

/-- The detail response: the summary fields plus optional abilities and stats; the
stats mapping is given by its entries in `Object.entries` order. -/
structure PokemonDetail where
  id : JsNum
  name : JsString
  image : JsString
  height : JsNum
  weight : JsNum
  types : List JsString
  abilities : Option (List JsString)
  stats : Option (List (JsString × JsNum))
deriving DecidableEq

/-- The response of `GET /api/pokemon`. -/
structure ListResponse where
  results : List PokemonSummary
  fromCache : Bool
deriving DecidableEq

/-- The response of `GET /clear-cache`; an absent `message` reads as `undefined`. -/
structure CacheClearResult where
  status : JsString
  message : Option JsString
deriving DecidableEq

/-- The failed request object handed to an `error` callback. -/
structure JqXHR where
  status : Nat
  statusText : JsString
deriving DecidableEq

/-! ## Column renderers of `initPokemonTable` -/

/-- Render function of the image column. -/
def imageRender (data : JsString) : JsString :=
  js "<img src=\"" ++ data ++ js "\" class=\"pokemon-image\" alt=\"Imagen de Pokémon\">"

/-- Render function of the name column: `data.charAt(0).toUpperCase() + data.slice(1)`. -/
def nameRender (toUpperCase : JsString → JsString) (data : JsString) : JsString :=
  toUpperCase (charAt data 0) ++ slice data 1

/-- Render function of the height column: the template literal with `data / 10` and ` m`. -/
def heightRender (data : JsNum) : JsString :=
  JsNum.toString (JsNum.div data (JsNum.ofInt 10)) ++ js " m"

/-- Render function of the weight column: the template literal with `data / 10` and ` kg`. -/
def weightRender (data : JsNum) : JsString :=
  JsNum.toString (JsNum.div data (JsNum.ofInt 10)) ++ js " kg"

/-- The badge of one type. -/
def typeBadge (type : JsString) : JsString :=
  js "<span class=\"badge badge-type pokemon-type-" ++ type ++ js "\">" ++ type ++ js "</span>"

/-- Render function of the types column. -/
def typesRender (data : List JsString) : JsString :=
  join (js " ") (data.map typeBadge)

/-- Render function of the action column. -/
def actionRender (data : JsNum) : JsString :=
  js "<button class=\"btn btn-sm view-details\" data-id=\"" ++ JsNum.toString data
    ++ js "\">Ver Detalles</button>"

/-! ## The table widget -/

/-- Numeric properties of a record. -/
inductive NumField where
  | id | height | weight
deriving DecidableEq

/-- String properties of a record. -/
inductive StrField where
  | image | name
deriving DecidableEq

/-- The value of a numeric property. -/
def NumField.get : NumField → PokemonSummary → JsNum
  | .id, r => r.id
  | .height, r => r.height
  | .weight, r => r.weight

/-- The value of a string property. -/
def StrField.get : StrField → PokemonSummary → JsString
  | .image, r => r.image
  | .name, r => r.name

/-- A column definition: the property named by `data` and the optional `render` function. -/
inductive Column where
  | num (data : NumField) (render : Option (JsNum → JsString))
  | str (data : StrField) (render : Option (JsString → JsString))
  | types (render : Option (List JsString → JsString))

/-- The displayed content of a cell. -/
def Column.cell : Column → PokemonSummary → JsString
  | .num f none, r => JsNum.toString (f.get r)
  | .num f (some g), r => g (f.get r)
  | .str f none, r => f.get r
  | .str f (some g), r => g (f.get r)
  | .types none, r => join (js ",") r.types
  | .types (some g), r => g r.types

/-- Ordering direction. -/
inductive Direction where
  | asc | desc
deriving DecidableEq

/-- The options object passed to `DataTable`. -/
structure DataTable where
  data : List PokemonSummary
  columns : List Column
  pageLength : Nat
  languageUrl : JsString
  responsive : Bool
  order : List (Nat × Direction)

/-- Model of the third-party table widget (not part of the repository): the rows of the
table in its initial ordering.  A single ascending ordering on a numeric column is a
stable sort of the records by that number; other orderings are not modelled and leave
the records as given. -/
def DataTable.rows (t : DataTable) : List PokemonSummary :=
  match t.order with
  | [(c, .asc)] =>
    match t.columns.get? c with
    | some (.num f _) => t.data.insertionSort (fun a b => (f.get a).units ≤ (f.get b).units)
    | _ => t.data
  | _ => t.data

/-! ## Page state -/

/-- Content set with `.text()` or with `.html()`. -/
inductive Content where
  | text (s : JsString)
  | html (s : JsString)
deriving DecidableEq

/-- The cache-clear button. -/
structure Button where
  disabled : Bool
  content : Content
deriving DecidableEq

/-- A request descriptor passed to `$.ajax`. -/
structure Request where
  url : JsString
  method : JsString
  data : List (JsString × JsNum)
deriving DecidableEq

/-- The options of the success notification. -/
structure Toast where
  text : JsString
  duration : Nat
  close : Bool
  gravity : JsString
  position : JsString
  backgroundColor : JsString
deriving DecidableEq

/-- Effects visible outside the page state, in the order in which they happen. -/
inductive Effect where
  | ajax (r : Request)
  | showToast (t : Toast)
  | alert (msg : JsString)
  | consoleError (msg : JsString) (error : JqXHR)
  | tableDestroy
deriving DecidableEq

/-- A request that has been sent and not yet answered. -/
inductive Pending where
  | list
  | detail (pokemonId : JsNum)
  | clear
deriving DecidableEq

/-- The page: the elements the controller binds to, the two globals, the requests in
flight and the log of effects. -/
structure State where
  cacheStatus : Content
  requestTime : Content
  cacheInfoClasses : List JsString
  pokemonTable : Option DataTable
  modalCreated : Bool
  modalShown : Bool
  pokemonModalTitle : Content
  pokemonModalBody : Content
  clearCacheBtn : Button
  listening : Bool
  inFlight : List Pending
  log : List Effect

/-- The requests issued so far, oldest first. -/
def State.requests (s : State) : List Request :=
  s.log.filterMap (fun e => match e with | .ajax r => some r | _ => none)

/-- The call `$.ajax(...)` after `beforeSend`: the request is sent and awaits its answer. -/
def State.send (s : State) (r : Request) (p : Pending) : State :=
  { s with log := s.log ++ [Effect.ajax r], inFlight := s.inFlight ++ [p] }

/-- The method `.addClass` with a space-separated list of classes. -/
def addClasses (present : List JsString) (added : List JsString) : List JsString :=
  added.foldl (fun acc c => if c ∈ acc then acc else acc ++ [c]) present

/-! ## `loadPokemonData` and `initPokemonTable` -/

/-- The request of `loadPokemonData`. -/
def listRequest : Request :=
  { url := js "/api/pokemon", method := js "GET",
    data := [(js "limit", JsNum.ofInt 150), (js "offset", JsNum.ofInt 0)] }

/-- The function `loadPokemonData`, up to the sending of the request. -/
def loadPokemonData (s : State) : State :=
  State.send { s with cacheStatus := Content.text (js "Cargando datos...") } listRequest
    Pending.list

/-- The `columns` array of `initPokemonTable`. -/
def columns (toUpperCase : JsString → JsString) : List Column :=
  [ Column.num NumField.id none,
    Column.str StrField.image (some imageRender),
    Column.str StrField.name (some (nameRender toUpperCase)),
    Column.num NumField.height (some heightRender),
    Column.num NumField.weight (some weightRender),
    Column.types (some typesRender),
    Column.num NumField.id (some actionRender) ]

/-- The function `initPokemonTable`. -/
def initPokemonTable (toUpperCase : JsString → JsString) (pokemonData : List PokemonSummary)
    (s : State) : State :=
  let s1 := if s.pokemonTable.isSome then { s with log := s.log ++ [Effect.tableDestroy] } else s
  { s1 with
    pokemonTable := some
      { data := pokemonData
        columns := columns toUpperCase
        pageLength := 25
        languageUrl := js "//cdn.datatables.net/plug-ins/1.13.4/i18n/es-ES.json"
        responsive := true
        order := [(0, Direction.asc)] } }

/-- The `success` callback of `loadPokemonData`.  The elapsed time printed with two
decimals, `(endTime - startTime).toFixed(2)`, is read from the clock of the browser and
is an argument. -/
def loadPokemonData_success (toUpperCase : JsString → JsString) (loadTime : JsString)
    (response : ListResponse) (s : State) : State :=
  let s1 := { s with
    cacheStatus := Content.html (js "Datos cargados " ++
      (if response.fromCache then js "desde la caché" else js "desde la API")) }
  let s2 := { s1 with
    requestTime := Content.text (js "Tiempo de respuesta: " ++ loadTime ++ js " ms") }
  initPokemonTable toUpperCase response.results s2

/-- The `error` callback of `loadPokemonData`. -/
def loadPokemonData_error (error : JqXHR) (s : State) : State :=
  let s1 := { s with log := s.log ++ [Effect.consoleError (js "Error al cargar los datos:") error] }
  let s2 := { s1 with cacheStatus := Content.text (js "Error al cargar los datos") }
  { s2 with cacheInfoClasses := addClasses s2.cacheInfoClasses [js "alert", js "alert-danger"] }

/-! ## `loadPokemonDetails` -/

/-- The request of `loadPokemonDetails`. -/
def detailRequest (pokemonId : JsNum) : Request :=
  { url := js "/api/pokemon/" ++ JsNum.toString pokemonId, method := js "GET", data := [] }

/-- The loading indicator of the modal body. -/
def loadingBody : JsString :=
  js "\n        <div class=\"text-center\">\n            <div class=\"spinner-border\" role=\"status\">\n                <span class=\"visually-hidden\">Cargando...</span>\n            </div>\n        </div>\n    "

/-- The function `loadPokemonDetails`, up to the sending of the request. -/
def loadPokemonDetails (pokemonId : JsNum) (s : State) : State :=
  let s1 := { s with pokemonModalTitle := Content.text (js "Cargando...") }
  let s2 := { s1 with pokemonModalBody := Content.html loadingBody }
  let s3 := { s2 with modalShown := true }
  State.send s3 (detailRequest pokemonId) (Pending.detail pokemonId)

/-- The width of a stat bar: `Math.min(100, value / 1.5)`. -/
def barWidth (value : JsNum) : JsNum :=
  JsNum.min (JsNum.ofInt 100) (JsNum.div value JsNum.onePointFive)

/-- The label of a stat bar: the name of the stat and the raw value. -/
def statLabel (stat : JsString) (value : JsNum) : JsString :=
  js "<span class=\"stats-label\">" ++ stat ++ js ":</span>\n                                            <span>"
    ++ JsNum.toString value ++ js "</span>"

/-- Opening of a stat bar, up to the label. -/
def barOpen : JsString :=
  js "\n                                    <div class=\"col-sm-6 mb-2\">\n                                        <div class=\"d-flex justify-content-between\">\n                                            "

/-- From the label of a stat bar to the value of its `width`. -/
def barStyle : JsString :=
  js "\n                                        </div>\n                                        <div class=\"progress\">\n                                            <div class=\"progress-bar stats-bar bg-success\" role=\"progressbar\"\n                                                style=\"width: "

/-- From the percent sign of the `width` to the value of `aria-valuenow`. -/
def barAria : JsString :=
  js "%\"\n                                                aria-valuenow=\""

/-- Closing of a stat bar. -/
def barClose : JsString :=
  js "\" aria-valuemin=\"0\" aria-valuemax=\"100\">\n                                            </div>\n                                        </div>\n                                    </div>\n                                "

/-- The template of one stat bar, for the entry `[stat, value]`. -/
def statBar (entry : JsString × JsNum) : JsString :=
  barOpen ++ statLabel entry.1 entry.2 ++ barStyle ++ JsNum.toString (barWidth entry.2)
    ++ barAria ++ JsNum.toString entry.2 ++ barClose

/-- Opening of the stats section. -/
def statsHeader : JsString :=
  js "\n                            <h4>Estadísticas</h4>\n                            <div class=\"row\">\n                                "

/-- Closing of the stats section. -/
def statsFooter : JsString :=
  js "\n                            </div>\n                        "

/-- The bars of a stats mapping: `Object.entries(pokemon.stats).map(...)`. -/
def statBars (stats : List (JsString × JsNum)) : List JsString := stats.map statBar

/-- The stats section: present only when `pokemon.stats` is. -/
def statsSection (stats : Option (List (JsString × JsNum))) : JsString :=
  match stats with
  | some m => statsHeader ++ join [] (statBars m) ++ statsFooter
  | none => []

/-- The abilities cell: the abilities joined by a comma and a space, or `N/A`. -/
def abilitiesCell (abilities : Option (List JsString)) : JsString :=
  match abilities with
  | some a => join (js ", ") a
  | none => js "N/A"

/-- The part of the modal body before the abilities cell. -/
def modalHead (pokemon : PokemonDetail) : JsString :=
  js "\n                <div class=\"row\">\n                    <div class=\"col-md-4 text-center\">\n                        <img src=\""
    ++ pokemon.image
    ++ js "\" class=\"img-fluid pokemon-detail-img\" alt=\""
    ++ pokemon.name
    ++ js "\" style=\"width: 150px;\">\n                        <div class=\"mt-3\">\n                            "
    ++ join (js " ") (pokemon.types.map typeBadge)
    ++ js "\n                        </div>\n                    </div>\n                    <div class=\"col-md-8\">\n                        <h4>Estadísticas básicas</h4>\n                        <table class=\"table table-sm\">\n                            <tr>\n                                <th>ID:</th>\n                                <td>"
    ++ JsNum.toString pokemon.id
    ++ js "</td>\n                            </tr>\n                            <tr>\n                                <th>Altura:</th>\n                                <td>"
    ++ (JsNum.toString (JsNum.div pokemon.height (JsNum.ofInt 10)) ++ js " m")
    ++ js "</td>\n                            </tr>\n                            <tr>\n                                <th>Peso:</th>\n                                <td>"
    ++ (JsNum.toString (JsNum.div pokemon.weight (JsNum.ofInt 10)) ++ js " kg")
    ++ js "</td>\n                            </tr>\n                            <tr>\n                                <th>Habilidades:</th>\n                                <td>"

/-- The part of the modal body between the abilities cell and the stats section. -/
def modalMiddle : JsString :=
  js "</td>\n                            </tr>\n                        </table>\n\n                        "

/-- The end of the modal body. -/
def modalTail : JsString :=
  js "\n                    </div>\n                </div>\n            "

/-- The template `modalContent` of the `success` callback of `loadPokemonDetails`. -/
def modalContent (pokemon : PokemonDetail) : JsString :=
  modalHead pokemon ++ abilitiesCell pokemon.abilities ++ modalMiddle
    ++ statsSection pokemon.stats ++ modalTail

/-- The `success` callback of `loadPokemonDetails`. -/
def loadPokemonDetails_success (toUpperCase : JsString → JsString) (pokemon : PokemonDetail)
    (s : State) : State :=
  let s1 := { s with
    pokemonModalTitle :=
      Content.text (toUpperCase (charAt pokemon.name 0) ++ slice pokemon.name 1) }
  { s1 with pokemonModalBody := Content.html (modalContent pokemon) }

/-- The error notice of the modal body. -/
def detailErrorBody : JsString :=
  js "\n                <div class=\"alert alert-danger\">\n                    Error al cargar los detalles del Pokémon.\n                </div>\n            "

/-- The `error` callback of `loadPokemonDetails`. -/
def loadPokemonDetails_error (error : JqXHR) (s : State) : State :=
  let s1 := { s with
    log := s.log ++ [Effect.consoleError (js "Error al cargar los detalles:") error] }
  { s1 with pokemonModalBody := Content.html detailErrorBody }

/-! ## `clearCache` -/

/-- The request of `clearCache`. -/
def clearRequest : Request := { url := js "/clear-cache", method := js "GET", data := [] }

/-- The `beforeSend` callback of `clearCache`. -/
def clearCache_beforeSend (s : State) : State :=
  { s with
    clearCacheBtn :=
      { disabled := true
        content := Content.html (js "<span class=\"spinner-border spinner-border-sm\" role=\"status\" aria-hidden=\"true\"></span> Limpiando...") } }

/-- The function `clearCache`: `beforeSend` runs, then the request is sent. -/
def clearCache (s : State) : State :=
  State.send (clearCache_beforeSend s) clearRequest Pending.clear

/-- The success notification. -/
def successToast : Toast :=
  { text := js "Caché limpiada correctamente", duration := 3000, close := true,
    gravity := js "top", position := js "right", backgroundColor := js "#4CAF50" }

/-- The `success` callback of `clearCache`. -/
def clearCache_success (response : CacheClearResult) (s : State) : State :=
  if response.status = js "success" then
    loadPokemonData { s with log := s.log ++ [Effect.showToast successToast] }
  else
    { s with
      log := s.log ++ [Effect.alert (js "Error al limpiar la caché: " ++
        response.message.getD (js "undefined"))] }

/-- The `error` callback of `clearCache`. -/
def clearCache_error (error : JqXHR) (s : State) : State :=
  let s1 := { s with log := s.log ++ [Effect.consoleError (js "Error al limpiar la caché:") error] }
  { s1 with log := s1.log ++ [Effect.alert (js "Error al limpiar la caché")] }

/-- The `complete` callback of `clearCache`. -/
def clearCache_complete (s : State) : State :=
  { s with clearCacheBtn := { disabled := false, content := Content.text (js "Limpiar Caché") } }

/-- The outcome of a request: the parsed response, or a failed request. -/
inductive Outcome (α : Type) where
  | response (r : α)
  | failure (error : JqXHR)

/-- Completion of the `clearCache` request: `success` or `error`, then `complete`. -/
def clearCache_done (o : Outcome CacheClearResult) (s : State) : State :=
  match o with
  | .response r => clearCache_complete (clearCache_success r s)
  | .failure e => clearCache_complete (clearCache_error e s)

/-- Completion of the `loadPokemonData` request. -/
def loadPokemonData_done (toUpperCase : JsString → JsString) (loadTime : JsString)
    (o : Outcome ListResponse) (s : State) : State :=
  match o with
  | .response r => loadPokemonData_success toUpperCase loadTime r s
  | .failure e => loadPokemonData_error e s

/-- Completion of a `loadPokemonDetails` request. -/
def loadPokemonDetails_done (toUpperCase : JsString → JsString) (o : Outcome PokemonDetail)
    (s : State) : State :=
  match o with
  | .response r => loadPokemonDetails_success toUpperCase r s
  | .failure e => loadPokemonDetails_error e s

/-! ## The page as an event-driven system -/

/-- The function `setupEventListeners`. -/
def setupEventListeners (s : State) : State := { s with listening := true }

/-- The `$(document).ready` callback. -/
def ready (s : State) : State :=
  setupEventListeners (loadPokemonData { s with modalCreated := true })

/-- What can happen to the page after it is ready: a click on a details button or on the
cache-clear button, or the answer to a request in flight. -/
inductive Event where
  | clickViewDetails (pokemonId : JsNum)
  | clickClearCache
  | listDone (loadTime : JsString) (o : Outcome ListResponse)
  | detailDone (pokemonId : JsNum) (o : Outcome PokemonDetail)
  | clearDone (o : Outcome CacheClearResult)

/-- One event.  A click reaches its handler only when the listeners are registered, and
the browser delivers no click to a disabled button; an answer is delivered only to a
request in flight, which it completes. -/
def step (toUpperCase : JsString → JsString) (s : State) : Event → State
  | .clickViewDetails pokemonId => if s.listening then loadPokemonDetails pokemonId s else s
  | .clickClearCache =>
    if s.listening ∧ s.clearCacheBtn.disabled = false then clearCache s else s
  | .listDone loadTime o =>
    if Pending.list ∈ s.inFlight then
      loadPokemonData_done toUpperCase loadTime o
        { s with inFlight := s.inFlight.erase Pending.list }
    else s
  | .detailDone pokemonId o =>
    if Pending.detail pokemonId ∈ s.inFlight then
      loadPokemonDetails_done toUpperCase o
        { s with inFlight := s.inFlight.erase (Pending.detail pokemonId) }
    else s
  | .clearDone o =>
    if Pending.clear ∈ s.inFlight then
      clearCache_done o { s with inFlight := s.inFlight.erase Pending.clear }
    else s

/-- A sequence of events. -/
def run (toUpperCase : JsString → JsString) (s : State) (es : List Event) : State :=
  es.foldl (step toUpperCase) s

/-- The guard on the cache-clear request: at most one such request is in flight, and
while one is, the button is disabled. -/
def ClearGuard (s : State) : Prop :=
  s.inFlight.count Pending.clear ≤ 1 ∧
    (Pending.clear ∈ s.inFlight → s.clearCacheBtn.disabled = true)

/-- A detail record used in examples. -/
def pikachuDetail : PokemonDetail :=
  { id := JsNum.ofInt 25, name := js "pikachu", image := js "pikachu.png",
    height := JsNum.ofInt 4, weight := JsNum.ofInt 60, types := [js "electric"],
    abilities := some [js "static", js "lightning-rod"],
    stats := some [(js "hp", JsNum.ofInt 35), (js "speed", JsNum.ofInt 90)] }

/-- A page before `ready`, used in examples: nothing displayed, nothing in flight. -/
def blankPage : State :=
  { cacheStatus := Content.text [], requestTime := Content.text [], cacheInfoClasses := [],
    pokemonTable := none, modalCreated := false, modalShown := false,
    pokemonModalTitle := Content.text [], pokemonModalBody := Content.text [],
    clearCacheBtn := { disabled := false, content := Content.text (js "Limpiar Caché") },
    listening := false, inFlight := [], log := [] }

/-! ## Theorems -/

set_option exponentiation.threshold 5000

/-! ### Numbers -/

/-- The unit count of `1` is positive. -/
theorem scale_pos : 0 < scale := by unfold scale; positivity

/-- A number is non-negative exactly when its unit count is. -/
theorem JsNum.toRat_nonneg_iff (x : JsNum) : 0 ≤ x.toRat ↔ 0 ≤ x.units := by
  have h : (0 : ℚ) < (scale : ℚ) := by exact_mod_cast scale_pos
  unfold JsNum.toRat
  rw [le_div_iff₀ h]
  simp

/-- Numbers compare as their unit counts do. -/
theorem JsNum.toRat_le_iff (x y : JsNum) : x.toRat ≤ y.toRat ↔ x.units ≤ y.units := by
  have h : (0 : ℚ) < (scale : ℚ) := by exact_mod_cast scale_pos
  unfold JsNum.toRat
  rw [div_le_div_iff_of_pos_right h]
  exact_mod_cast Iff.rfl

/-- The value of the number made from an integer is that integer. -/
theorem JsNum.toRat_ofInt (i : Int) : (JsNum.ofInt i).toRat = i := by
  have h : (scale : ℚ) ≠ 0 := by exact_mod_cast scale_pos.ne'
  unfold JsNum.toRat JsNum.ofInt
  push_cast
  field_simp

/-- The quotient of two non-negative numbers is non-negative. -/
theorem JsNum.div_units_nonneg (x y : JsNum) (hx : 0 ≤ x.units) (hy : 0 ≤ y.units) :
    0 ≤ (JsNum.div x y).units := by
  unfold JsNum.div
  simp only
  have h1 : 0 ≤ x.units.sign := Int.sign_nonneg.mpr hx
  have h2 : 0 ≤ y.units.sign := Int.sign_nonneg.mpr hy
  positivity

/-! ### The leading bit and rounding -/

/-- Invariant of the binary search: the result brackets `n` between two consecutive powers of two.
-/
theorem log2Aux_spec (n : Nat) : ∀ b acc : Nat, 2 ^ acc ≤ n → n < 2 ^ (acc + 2 ^ b) →
    2 ^ log2Aux n b acc ≤ n ∧ n < 2 ^ (log2Aux n b acc + 1) := by
  intro b
  induction b with
  | zero =>
    intro acc h1 h2
    exact ⟨h1, by simpa [log2Aux] using h2⟩
  | succ b ih =>
    intro acc h1 h2
    have hb : acc + 2 ^ (b + 1) = acc + 2 ^ b + 2 ^ b := by rw [pow_succ]; omega
    unfold log2Aux
    split
    · rename_i hle
      exact ih _ hle (by rw [← hb]; exact h2)
    · rename_i hle
      exact ih _ h1 (Nat.lt_of_not_le hle)

/-- For `0 < n < 2 ^ 4096`, `log2 n` is the position of the leading bit. -/
theorem log2_spec (n : Nat) (h0 : 0 < n) (h : n < 2 ^ 4096) :
    2 ^ log2 n ≤ n ∧ n < 2 ^ (log2 n + 1) := by
  unfold log2
  apply log2Aux_spec
  · simpa using h0
  · have : (0 + 2 ^ 12 : Nat) = 4096 := by norm_num
    rw [this]
    exact h

/-- The search returns `0` on `0`. -/
theorem log2_zero : log2 0 = 0 := by
  simp [log2, log2Aux]

/-- A number below `2 ^ e` has its leading bit below position `e`. -/
theorem log2_lt_of_lt (n e : Nat) (h : n < 2 ^ e) (he : e ≤ 4096) : log2 n < e ∨ n = 0 := by
  rcases Nat.eq_zero_or_pos n with h0 | h0
  · exact Or.inr h0
  · left
    have h4 : n < 2 ^ 4096 := lt_of_lt_of_le h (Nat.pow_le_pow_right (by norm_num) he)
    have hs := (log2_spec n h0 h4).1
    have : 2 ^ log2 n < 2 ^ e := lt_of_le_of_lt hs h
    exact (Nat.pow_lt_pow_iff_right (by norm_num)).mp this

/-- The rounded value is within half a grid step of `a / b`. -/
theorem roundNearestEven_near (a b : Nat) (hb : 0 < b) :
    2 * (roundNearestEven a b * b) ≤ 2 * a + b * 2 ^ (log2 (a / b) - 52) ∧
    2 * a ≤ 2 * (roundNearestEven a b * b) + b * 2 ^ (log2 (a / b) - 52) := by
  unfold roundNearestEven
  simp only
  generalize log2 (a / b) - 52 = sh
  have hX : b * 2 ^ sh * (a / (b * 2 ^ sh)) + a % (b * 2 ^ sh) = a := Nat.div_add_mod a _
  have hrd : a % (b * 2 ^ sh) < b * 2 ^ sh := Nat.mod_lt _ (Nat.mul_pos hb (by positivity))
  generalize hd : b * 2 ^ sh = d at *
  generalize hq : a / d = q at *
  generalize hr : a % d = r at *
  have e1 : q * 2 ^ sh * b = d * q := by rw [← hd]; ring
  have e2 : (q + 1) * 2 ^ sh * b = d * q + d := by rw [← hd]; ring
  generalize hR : (if 2 * r < d then q * 2 ^ sh
    else if d < 2 * r then (q + 1) * 2 ^ sh
    else if q % 2 = 0 then q * 2 ^ sh else (q + 1) * 2 ^ sh) = R
  have hcase : (R = q * 2 ^ sh ∧ 2 * r ≤ d) ∨ (R = (q + 1) * 2 ^ sh ∧ d ≤ 2 * r) := by
    split at hR
    · exact Or.inl ⟨hR.symm, by omega⟩
    · split at hR
      · exact Or.inr ⟨hR.symm, by omega⟩
      · split at hR
        · exact Or.inl ⟨hR.symm, by omega⟩
        · exact Or.inr ⟨hR.symm, by omega⟩
  clear hR
  rcases hcase with ⟨h1, h2⟩ | ⟨h1, h2⟩
  · rw [h1, e1]
    clear e1 e2 h1
    generalize d * q = X at hX ⊢
    omega
  · rw [h1, e2]
    clear e1 e2 h1
    generalize d * q = X at hX ⊢
    omega

/-- The unit count of `1`, as 64 grid steps of the binade of `2 ^ 46`. -/
theorem scale_eq : scale = 64 * 2 ^ 1068 := by
  unfold scale
  rw [show (1074 : Nat) = 6 + 1068 from rfl, pow_add]
  norm_num

/-- Below `2 ^ 47`, rounding moves a value by at most `1 / 128`. -/
theorem roundNearestEven_error (a b : Nat) (hb : 0 < b) (h : a / b < 2 ^ 1121) :
    128 * (roundNearestEven a b * b) ≤ 128 * a + b * scale ∧
    128 * a ≤ 128 * (roundNearestEven a b * b) + b * scale := by
  have hn := roundNearestEven_near a b hb
  have hsh : log2 (a / b) - 52 ≤ 1068 := by
    rcases log2_lt_of_lt _ _ h (by norm_num) with h1 | h1
    · omega
    · rw [h1, log2_zero]
      omega
  have hp : 2 ^ (log2 (a / b) - 52) ≤ 2 ^ 1068 := Nat.pow_le_pow_right (by norm_num) hsh
  have hm : b * 2 ^ (log2 (a / b) - 52) ≤ b * 2 ^ 1068 := Nat.mul_le_mul_left _ hp
  have hs : b * scale = 64 * (b * 2 ^ 1068) := by rw [scale_eq]; ring
  rw [hs]
  omega

/-- Zero rounds to zero. -/
theorem roundNearestEven_zero (b : Nat) (hb : 0 < b) : roundNearestEven 0 b = 0 := by
  unfold roundNearestEven
  simp [log2_zero, hb]

/-- An integer below `2 ^ 53` is a double: it rounds to itself. -/
theorem roundNearestEven_exact (j c : Nat) (hc : 0 < c) (hj : j < 2 ^ 53) :
    roundNearestEven (j * scale * c) c = j * scale := by
  rcases Nat.eq_zero_or_pos j with h0 | h0
  · subst h0
    simpa using roundNearestEven_zero c hc
  · have hq : j * scale * c / c = j * scale := Nat.mul_div_cancel _ hc
    have hpos : 0 < j * scale := Nat.mul_pos h0 scale_pos
    have hlt : j * scale < 2 ^ 1127 := by
      have : j * scale < 2 ^ 53 * 2 ^ 1074 := by
        unfold scale
        exact Nat.mul_lt_mul_of_pos_right hj (by positivity)
      rwa [← pow_add] at this
    have hsh : log2 (j * scale) - 52 ≤ 1074 := by
      rcases log2_lt_of_lt _ _ hlt (by norm_num) with h1 | h1
      · omega
      · omega
    unfold roundNearestEven
    simp only [hq]
    generalize log2 (j * scale) - 52 = sh at hsh
    have hS : scale = 2 ^ (1074 - sh) * 2 ^ sh := by
      unfold scale
      rw [← pow_add]
      congr 1
      omega
    have hd : 0 < c * 2 ^ sh := Nat.mul_pos hc (by positivity)
    have ha : j * scale * c = j * 2 ^ (1074 - sh) * (c * 2 ^ sh) := by rw [hS]; ring
    rw [ha, Nat.mul_div_cancel _ hd, Nat.mul_mod_left]
    rw [if_pos (by omega)]
    rw [hS]
    ring

/-- Rounding depends on the fraction `a / b` only, not on its representation. -/
theorem roundNearestEven_mul_right (a b c : Nat) (hc : 0 < c) :
    roundNearestEven (a * c) (b * c) = roundNearestEven a b := by
  unfold roundNearestEven
  simp only
  rw [Nat.mul_div_mul_right _ _ hc]
  generalize log2 (a / b) - 52 = sh
  have hd : b * c * 2 ^ sh = b * 2 ^ sh * c := by ring
  rw [hd, Nat.mul_div_mul_right _ _ hc, Nat.mul_mod_mul_right]
  generalize a / (b * 2 ^ sh) = q
  generalize a % (b * 2 ^ sh) = r
  generalize b * 2 ^ sh = d
  have h1 : (2 * (r * c) < d * c) ↔ (2 * r < d) := by
    rw [← mul_assoc]
    exact Nat.mul_lt_mul_right hc
  have h2 : (d * c < 2 * (r * c)) ↔ (d < 2 * r) := by
    rw [← mul_assoc]
    exact Nat.mul_lt_mul_right hc
  simp only [h1, h2]

/-! ### Decimal digits -/

/-- A number below ten prints as its digit. -/
theorem natToString_small (n : Nat) (h : n < 10) : natToString n = [48 + n] := by
  unfold natToString digitsAux
  rw [if_pos h]

/-- With enough fuel, `digitsAux` prepends the decimal representation. -/
theorem digitsAux_eq (n : Nat) : ∀ f acc, n < f → digitsAux f n acc = natToString n ++ acc := by
  induction n using Nat.strong_induction_on with
  | _ n ih =>
    intro f acc hf
    obtain ⟨f0, rfl⟩ : ∃ f0, f = f0 + 1 := ⟨f - 1, by omega⟩
    by_cases h : n < 10
    · rw [natToString_small n h]
      unfold digitsAux
      rw [if_pos h]
      rfl
    · have hdiv : n / 10 < n := Nat.div_lt_self (by omega) (by norm_num)
      have e1 : digitsAux (f0 + 1) n acc = digitsAux f0 (n / 10) ((48 + n % 10) :: acc) := by
        rw [digitsAux, if_neg h]
      have e2 : natToString n = digitsAux n (n / 10) [48 + n % 10] := by
        unfold natToString
        rw [digitsAux, if_neg h]
      rw [e1, e2, ih _ hdiv f0 _ (by omega), ih _ hdiv n _ hdiv]
      simp

/-- The decimal representation of `n` is that of `n / 10` followed by the last digit. -/
theorem natToString_step (n : Nat) (h : 10 ≤ n) :
    natToString n = natToString (n / 10) ++ [48 + n % 10] := by
  have hdiv : n / 10 < n := Nat.div_lt_self (by omega) (by norm_num)
  have e2 : natToString n = digitsAux n (n / 10) [48 + n % 10] := by
    unfold natToString
    rw [digitsAux, if_neg (by omega)]
  rw [e2, digitsAux_eq _ _ _ hdiv]

/-- Appending a digit to a positive number. -/
theorem natToString_mul_ten_add (j r : Nat) (hj : 0 < j) (hr : r < 10) :
    natToString (10 * j + r) = natToString j ++ [48 + r] := by
  rw [natToString_step _ (by omega)]
  have h1 : (10 * j + r) / 10 = j := by omega
  have h2 : (10 * j + r) % 10 = r := by omega
  rw [h1, h2]

/-- Multiplying a positive number by `10 ^ z` appends `z` zeros. -/
theorem natToString_mul_pow (s z : Nat) (hs : 0 < s) :
    natToString (s * 10 ^ z) = natToString s ++ zeros z := by
  induction z with
  | zero => simp [zeros]
  | succ z ih =>
    have h : s * 10 ^ (z + 1) = 10 * (s * 10 ^ z) + 0 := by ring
    rw [h, natToString_mul_ten_add _ _ (Nat.mul_pos hs (by positivity)) (by norm_num), ih]
    simp [zeros, List.replicate_succ']

/-- A decimal representation is never empty. -/
theorem natToString_length_pos (n : Nat) : 0 < (natToString n).length := by
  by_cases h : n < 10
  · rw [natToString_small n h]
    simp
  · rw [natToString_step n (by omega)]
    simp

/-- A positive number with `l` digits lies between `10 ^ (l - 1)` and `10 ^ l`. -/
theorem natToString_bounds (n : Nat) :
    0 < n → 10 ^ ((natToString n).length - 1) ≤ n ∧ n < 10 ^ (natToString n).length := by
  induction n using Nat.strong_induction_on with
  | _ n ih =>
    intro hn
    by_cases h : n < 10
    · rw [natToString_small n h]
      simp
      omega
    · have hdiv : n / 10 < n := Nat.div_lt_self (by omega) (by norm_num)
      have hpos : 0 < n / 10 := by omega
      obtain ⟨h1, h2⟩ := ih _ hdiv hpos
      have hl := natToString_length_pos (n / 10)
      rw [natToString_step n (by omega)]
      simp only [List.length_append, List.length_singleton, Nat.add_sub_cancel]
      obtain ⟨l, hl2⟩ : ∃ l, (natToString (n / 10)).length = l + 1 :=
        ⟨(natToString (n / 10)).length - 1, by omega⟩
      rw [hl2] at h1 h2 ⊢
      simp only [Nat.add_sub_cancel] at h1
      constructor
      · rw [pow_succ]
        omega
      · rw [pow_succ]
        omega

/-! ### The digit search -/

/-- The power `10 ^ e` for a natural exponent. -/
theorem pow10_natCast (e : Nat) : pow10 (e : Int) = (10 ^ e, 1) := by
  unfold pow10
  rw [if_pos (Int.natCast_nonneg e)]
  simp

/-- The power `10 ^ (-1)`. -/
theorem pow10_neg_one : pow10 (-1) = (1, 10) := by
  decide

/-- An integer decimal below `2 ^ 53` converts to the double of `N` units exactly when it equals
it. -/
theorem roundTrips_int (N s e : Nat) (h : s * 10 ^ e < 2 ^ 53) :
    roundTrips N s (e : Int) = decide (s * 10 ^ e * scale = N) := by
  unfold roundTrips
  rw [pow10_natCast]
  have h1 := roundNearestEven_exact (s * 10 ^ e) 1 (by norm_num) h
  rw [Nat.mul_one] at h1
  simp only [h1]
  by_cases hN : s * 10 ^ e * scale = N <;> simp [hN]

/-- If no candidate next to the double converts back to it, `pick` finds nothing. -/
theorem pick_eq_none (N : Nat) (p : Int) (k : Nat)
    (h : ∀ s, s ≤ N * (pow10 (p - k)).2 / (scale * (pow10 (p - k)).1) + 1 →
      roundTrips N s (p - k) = false) :
    pick N p k = none := by
  unfold pick
  simp only
  have h1 := h (N * (pow10 (p - k)).2 / (scale * (pow10 (p - k)).1)) (by omega)
  have h2 := h (if N * (pow10 (p - k)).2 % (scale * (pow10 (p - k)).1) = 0
      then N * (pow10 (p - k)).2 / (scale * (pow10 (p - k)).1)
      else N * (pow10 (p - k)).2 / (scale * (pow10 (p - k)).1) + 1) (by split <;> omega)
  rw [h1, h2]
  simp

/-- The search returns the first digit count at which `pick` succeeds. -/
theorem shortest_skip (N : Nat) (p n : Int) (s : Nat) :
    ∀ d k fuel : Nat, (∀ i, i < d → pick N p (k + i) = none) →
      pick N p (k + d) = some (n, s) → d < fuel → shortest N p fuel k = (n, k + d, s) := by
  intro d
  induction d with
  | zero =>
    intro k fuel _ hp hf
    obtain ⟨f, rfl⟩ : ∃ f, fuel = f + 1 := ⟨fuel - 1, by omega⟩
    rw [Nat.add_zero] at hp
    simp [shortest, hp]
  | succ d ih =>
    intro k fuel hnone hp hf
    obtain ⟨f, rfl⟩ : ∃ f, fuel = f + 1 := ⟨fuel - 1, by omega⟩
    have h0 : pick N p k = none := by simpa using hnone 0 (by omega)
    have hrec := ih (k + 1) f
      (fun i hi => by
        have := hnone (i + 1) (by omega)
        rwa [show k + (i + 1) = k + 1 + i by omega] at this)
      (by rwa [show k + (d + 1) = k + 1 + d by omega] at hp)
      (by omega)
    simp only [shortest, h0, hrec]
    congr 2
    omega

/-! ### A tenth of an integer below `10 ^ 15` -/

/-- Powers of ten against powers of two. -/
theorem pow_facts : (10 : Nat) ^ 14 < 2 ^ 47 ∧ (10 : Nat) ^ 15 < 2 ^ 53 := by
  constructor <;> norm_num

/-- An integer up to `10 ^ 14 + 1` is below `2 ^ 47`, in units. -/
theorem scale_mul_lt (c : Nat) (h : c ≤ 10 ^ 14 + 1) : c * scale < 2 ^ 1121 := by
  have h1 : c < 2 ^ 47 := lt_of_le_of_lt h (by norm_num)
  have h2 : c * scale < 2 ^ 47 * scale := Nat.mul_lt_mul_of_pos_right h1 scale_pos
  have h3 : 2 ^ 47 * scale = 2 ^ 1121 := by
    unfold scale
    rw [← pow_add]
  omega

/-- A tenth of `10 * j` is the integer `j`, exactly. -/
theorem tenth_exact (j : Nat) (hj : j < 10 ^ 14) :
    roundNearestEven (10 * j * scale) 10 = j * scale := by
  have h := roundNearestEven_exact j 10 (by norm_num)
    (lt_trans hj (lt_trans pow_facts.1 (by norm_num)))
  rwa [show j * scale * 10 = 10 * j * scale by ring] at h

/-- A tenth of `m ≤ 10 ^ 15` is computed with an error of at most `1 / 128`. -/
theorem tenth_error (m : Nat) (hm : m ≤ 10 ^ 15) :
    128 * (roundNearestEven (m * scale) 10 * 10) ≤ 128 * (m * scale) + 10 * scale ∧
    128 * (m * scale) ≤ 128 * (roundNearestEven (m * scale) 10 * 10) + 10 * scale := by
  apply roundNearestEven_error _ _ (by norm_num)
  have h1 : m * scale / 10 ≤ m / 10 * scale + scale := by
    rw [Nat.div_le_iff_le_mul_add_pred (by norm_num)]
    have := Nat.div_add_mod m 10
    have h2 : m * scale = 10 * (m / 10 * scale) + m % 10 * scale := by
      conv_lhs => rw [← this]
      ring
    have h3 : m % 10 * scale ≤ 9 * scale := Nat.mul_le_mul_right _ (by omega)
    omega
  have h4 : (m / 10 + 1) * scale < 2 ^ 1121 := scale_mul_lt _ (by omega)
  have h5 : (m / 10 + 1) * scale = m / 10 * scale + scale := by ring
  omega

/-- A tenth of `10 * j + r` with `0 < r < 10` lies strictly between `j` and `j + 1`. -/
theorem tenth_between (j r : Nat) (hj : j < 10 ^ 14) (hr1 : 0 < r) (hr2 : r < 10) :
    j * scale < roundNearestEven ((10 * j + r) * scale) 10 ∧
    roundNearestEven ((10 * j + r) * scale) 10 < (j + 1) * scale := by
  obtain ⟨e1, e2⟩ := tenth_error (10 * j + r) (by omega)
  have h2 : (10 * j + r) * scale = 10 * (j * scale) + r * scale := by ring
  have h3 : r * scale ≤ 9 * scale := Nat.mul_le_mul_right _ (by omega)
  have h4 : 1 * scale ≤ r * scale := Nat.mul_le_mul_right _ (by omega)
  have h5 : (j + 1) * scale = j * scale + scale := by ring
  have hs := scale_pos
  rw [h2] at e1 e2 ⊢
  rw [h5]
  clear h2 h5
  generalize roundNearestEven (10 * (j * scale) + r * scale) 10 = N at e1 e2 ⊢
  generalize j * scale = X at e1 e2 ⊢
  generalize r * scale = Y at e1 e2 h3 h4 ⊢
  omega

/-- If exactly the candidate `s` converts back to the double, `pick` returns it. -/
theorem pick_eq_some (N : Nat) (p : Int) (k s : Nat)
    (hmem : s = N * (pow10 (p - k)).2 / (scale * (pow10 (p - k)).1) ∨
      s = (if N * (pow10 (p - k)).2 % (scale * (pow10 (p - k)).1) = 0
        then N * (pow10 (p - k)).2 / (scale * (pow10 (p - k)).1)
        else N * (pow10 (p - k)).2 / (scale * (pow10 (p - k)).1) + 1))
    (hok : roundTrips N s (p - k) = true)
    (hother : ∀ s', s' ≤ N * (pow10 (p - k)).2 / (scale * (pow10 (p - k)).1) + 1 → s' ≠ s →
      roundTrips N s' (p - k) = false)
    (hlow : 10 ^ (k - 1) ≤ s) (hne : s ≠ 10 ^ k) :
    pick N p k = some (p, s) := by
  unfold pick
  simp only
  generalize N * (pow10 (p - k)).2 / (scale * (pow10 (p - k)).1) = lo at hmem hother ⊢
  generalize hhi : (if N * (pow10 (p - k)).2 % (scale * (pow10 (p - k)).1) = 0
        then lo else lo + 1) = hi at hmem ⊢
  have hhile : hi ≤ lo + 1 := by
    rw [← hhi]
    split <;> omega
  by_cases h1 : lo = s
  · by_cases h2 : hi = s
    · subst h1
      subst h2
      simp only [hok, decide_eq_true hlow, Bool.and_self, if_true, if_neg hne]
      split_ifs <;> rfl
    · have hf := hother hi hhile h2
      subst h1
      simp [hok, hf, decide_eq_true hlow]
  · have hf := hother lo (by omega) h1
    have h2 : hi = s := by
      rcases hmem with h | h
      · exact absurd h.symm h1
      · exact h.symm
    subst h2
    simp [hok, hf, hne]

/-- A positive number below `10 ^ 14` has at most 14 digits. -/
theorem natToString_length_le (j : Nat) (hj0 : 0 < j) (hj : j < 10 ^ 14) :
    (natToString j).length ≤ 14 := by
  obtain ⟨b1, _⟩ := natToString_bounds j hj0
  have : (natToString j).length - 1 < 14 :=
    (Nat.pow_lt_pow_iff_right (by norm_num : 1 < 10)).mp (lt_of_le_of_lt b1 hj)
  omega

/-- No decimal with only integer digits converts to the double of `j + r / 10`, `0 < r < 10`. -/
theorem tenths_pick_none (j r k : Nat) (hj0 : 0 < j) (hj : j < 10 ^ 14) (hr1 : 0 < r)
    (hr2 : r < 10) (hk : k ≤ (natToString j).length) :
    pick (roundNearestEven ((10 * j + r) * scale) 10) ((natToString j).length : Int) k
      = none := by
  obtain ⟨b1, b2⟩ := tenth_between j r hj hr1 hr2
  have hP := natToString_length_le j hj0 hj
  generalize roundNearestEven ((10 * j + r) * scale) 10 = N at b1 b2 ⊢
  generalize (natToString j).length = P at hk hP ⊢
  have ht : (P : Int) - (k : Int) = ((P - k : Nat) : Int) := by omega
  have hNS : N / scale = j := Nat.div_eq_of_lt_le (le_of_lt b1) b2
  apply pick_eq_none
  rw [ht, pow10_natCast]
  simp only [Nat.mul_one]
  intro s hs
  rw [← Nat.div_div_eq_div_mul, hNS] at hs
  have he : 10 ^ (P - k) ≤ 10 ^ 14 := Nat.pow_le_pow_right (by norm_num) (by omega)
  have hmul : s * 10 ^ (P - k) ≤ j + 10 ^ (P - k) := by
    calc s * 10 ^ (P - k) ≤ (j / 10 ^ (P - k) + 1) * 10 ^ (P - k) :=
          Nat.mul_le_mul_right _ hs
      _ = j / 10 ^ (P - k) * 10 ^ (P - k) + 10 ^ (P - k) := by ring
      _ ≤ j + 10 ^ (P - k) := Nat.add_le_add_right (Nat.div_mul_le_self _ _) _
  have hb : s * 10 ^ (P - k) < 2 ^ 53 := by
    have : (10 : Nat) ^ 14 + 10 ^ 14 < 2 ^ 53 := by norm_num
    omega
  rw [roundTrips_int _ _ _ hb]
  apply decide_eq_false
  intro hEq
  rw [← hEq] at b1 b2
  have c1 := Nat.lt_of_mul_lt_mul_right b1
  have c2 := Nat.lt_of_mul_lt_mul_right b2
  omega

/-- With one digit after the point, the decimal `j.r` is the one found. -/
theorem tenths_pick_some (j r : Nat) (hj0 : 0 < j) (hj : j < 10 ^ 14) (hr1 : 0 < r)
    (hr2 : r < 10) :
    pick (roundNearestEven ((10 * j + r) * scale) 10) ((natToString j).length : Int)
      ((natToString j).length + 1) = some (((natToString j).length : Int), 10 * j + r) := by
  obtain ⟨e1, e2⟩ := tenth_error (10 * j + r) (by omega)
  obtain ⟨d1, d2⟩ := natToString_bounds j hj0
  have hlp := natToString_length_pos j
  have hdef : roundNearestEven ((10 * j + r) * scale) 10
      = roundNearestEven ((10 * j + r) * scale) 10 := rfl
  generalize hm : 10 * j + r = m at e1 e2 hdef ⊢
  generalize hN : roundNearestEven (m * scale) 10 = N at e1 e2 ⊢
  generalize (natToString j).length = P at d1 d2 hlp ⊢
  have ht : (P : Int) - ((P + 1 : Nat) : Int) = -1 := by push_cast; omega
  have hs := scale_pos
  -- the candidates
  have hlt : N * 10 < (m + 1) * scale := by
    have : (m + 1) * scale = m * scale + scale := by ring
    omega
  have hgt : (m - 1) * scale < N * 10 := by
    have : m * scale = (m - 1) * scale + scale := by
      conv_lhs => rw [show m = (m - 1) + 1 by omega]
      ring
    omega
  apply pick_eq_some
  · rw [ht, pow10_neg_one]
    show m = N * 10 / (scale * 1) ∨ m = if N * 10 % (scale * 1) = 0
      then N * 10 / (scale * 1) else N * 10 / (scale * 1) + 1
    rw [Nat.mul_one]
    by_cases hc : m * scale ≤ N * 10
    · left
      exact (Nat.div_eq_of_lt_le hc hlt).symm
    · right
      have hlo : N * 10 / scale = m - 1 :=
        Nat.div_eq_of_lt_le (le_of_lt hgt) (by
          rw [show m - 1 + 1 = m by omega]
          omega)
      have hrem : N * 10 % scale ≠ 0 := by
        intro h0
        have := Nat.div_add_mod (N * 10) scale
        rw [h0, hlo, Nat.add_zero, Nat.mul_comm] at this
        omega
      rw [if_neg hrem, hlo]
      omega
  · rw [ht]
    unfold roundTrips
    rw [pow10_neg_one]
    show (roundNearestEven (m * 1 * scale) 10 == N) = true
    rw [Nat.mul_one, hN]
    exact beq_self_eq_true N
  · rw [ht, pow10_neg_one]
    show ∀ s, s ≤ N * 10 / (scale * 1) + 1 → s ≠ m → roundTrips N s (-1) = false
    rw [Nat.mul_one]
    intro s hs2 hne
    have hle : N * 10 / scale ≤ m := by
      have := Nat.div_mul_le_self (N * 10) scale
      by_contra hcon
      have h3 : (m + 1) * scale ≤ N * 10 / scale * scale := Nat.mul_le_mul_right _ (by omega)
      omega
    unfold roundTrips
    rw [pow10_neg_one]
    show (roundNearestEven (s * 1 * scale) 10 == N) = false
    rw [Nat.mul_one]
    apply beq_false_of_ne
    intro hEq
    obtain ⟨g1, g2⟩ := tenth_error s (by omega)
    rw [hEq] at g1 g2
    rcases Nat.lt_or_gt_of_ne hne with h | h
    · have : (s + 1) * scale ≤ m * scale := Nat.mul_le_mul_right _ h
      have h5 : (s + 1) * scale = s * scale + scale := by ring
      omega
    · have : (m + 1) * scale ≤ s * scale := Nat.mul_le_mul_right _ h
      have h5 : (m + 1) * scale = m * scale + scale := by ring
      omega
  · simp only [Nat.add_sub_cancel]
    obtain ⟨l, rfl⟩ : ∃ l, P = l + 1 := ⟨P - 1, by omega⟩
    simp only [Nat.add_sub_cancel] at d1
    rw [pow_succ]
    omega
  · rw [pow_succ]
    omega

/-- For the integer `j`: with `e` trailing positions dropped, a decimal is found exactly when `10
^ e` divides `j`. -/
theorem whole_pick (j e k : Nat) (hj0 : 0 < j) (hj : j < 10 ^ 14)
    (hke : k + e = (natToString j).length) (hk : 1 ≤ k) :
    (10 ^ e ∣ j → pick (j * scale) ((natToString j).length : Int) k
        = some (((natToString j).length : Int), j / 10 ^ e)) ∧
    (¬ 10 ^ e ∣ j → pick (j * scale) ((natToString j).length : Int) k = none) := by
  obtain ⟨d1, d2⟩ := natToString_bounds j hj0
  have hP := natToString_length_le j hj0 hj
  generalize (natToString j).length = P at hke hP d1 d2 ⊢
  have ht : (P : Int) - (k : Int) = ((e : Nat) : Int) := by omega
  have he : 10 ^ e ≤ 10 ^ 14 := Nat.pow_le_pow_right (by norm_num) (by omega)
  have hepos : 0 < 10 ^ e := by positivity
  have hlo : j * scale * 1 / (scale * 10 ^ e) = j / 10 ^ e := by
    rw [Nat.mul_one, Nat.mul_comm j scale, Nat.mul_div_mul_left _ _ scale_pos]
  have hbound : ∀ s, s ≤ j / 10 ^ e + 1 → s * 10 ^ e < 2 ^ 53 := by
    intro s hs
    have : s * 10 ^ e ≤ j + 10 ^ e := by
      calc s * 10 ^ e ≤ (j / 10 ^ e + 1) * 10 ^ e := Nat.mul_le_mul_right _ hs
        _ = j / 10 ^ e * 10 ^ e + 10 ^ e := by ring
        _ ≤ j + 10 ^ e := Nat.add_le_add_right (Nat.div_mul_le_self _ _) _
    have h2 : (10 : Nat) ^ 14 + 10 ^ 14 < 2 ^ 53 := by norm_num
    omega
  constructor
  · intro hdiv
    have hcancel : j / 10 ^ e * 10 ^ e = j := Nat.div_mul_cancel hdiv
    apply pick_eq_some
    · left
      rw [ht, pow10_natCast]
      exact hlo.symm
    · rw [ht, roundTrips_int _ _ _ (hbound _ (by omega)), hcancel]
      exact decide_eq_true rfl
    · rw [ht, pow10_natCast]
      show ∀ s, s ≤ j * scale * 1 / (scale * 10 ^ e) + 1 → s ≠ j / 10 ^ e →
        roundTrips (j * scale) s (e : Int) = false
      rw [hlo]
      intro s hs hne
      rw [roundTrips_int _ _ _ (hbound s hs)]
      apply decide_eq_false
      intro hEq
      have h1 : s * 10 ^ e = j := Nat.eq_of_mul_eq_mul_right scale_pos hEq
      apply hne
      rw [← h1, Nat.mul_div_cancel _ hepos]
    · rw [Nat.le_div_iff_mul_le hepos, ← pow_add]
      have : k - 1 + e = P - 1 := by omega
      rw [this]
      exact d1
    · apply Nat.ne_of_lt
      rw [Nat.div_lt_iff_lt_mul hepos, ← pow_add, hke]
      exact d2
  · intro hdiv
    apply pick_eq_none
    rw [ht, pow10_natCast]
    show ∀ s, s ≤ j * scale * 1 / (scale * 10 ^ e) + 1 →
      roundTrips (j * scale) s (e : Int) = false
    rw [hlo]
    intro s hs
    rw [roundTrips_int _ _ _ (hbound s hs)]
    apply decide_eq_false
    intro hEq
    have h1 : s * 10 ^ e = j := Nat.eq_of_mul_eq_mul_right scale_pos hEq
    exact hdiv ⟨s, by rw [← h1, Nat.mul_comm]⟩

/-- The search on the integer `j` ends on digits that print as `j`. -/
theorem whole_render (j : Nat) (hj0 : 0 < j) (hj : j < 10 ^ 14) :
    ∀ e k fuel : Nat, k + e = (natToString j).length → 1 ≤ k → e < fuel →
      render (shortest (j * scale) ((natToString j).length : Int) fuel k).1
        (shortest (j * scale) ((natToString j).length : Int) fuel k).2.1
        (shortest (j * scale) ((natToString j).length : Int) fuel k).2.2 = natToString j := by
  intro e
  induction e with
  | zero =>
    intro k fuel hke hk hf
    obtain ⟨f, rfl⟩ : ∃ f, fuel = f + 1 := ⟨fuel - 1, by omega⟩
    have hp := (whole_pick j 0 k hj0 hj hke hk).1 (by simp)
    have hP := natToString_length_le j hj0 hj
    simp only [shortest, hp, pow_zero, Nat.div_one]
    unfold render
    rw [if_pos ⟨by omega, by omega⟩]
    have : ((natToString j).length : Int).toNat - k = 0 := by
      rw [Int.toNat_natCast]
      omega
    rw [this]
    simp [zeros]
  | succ e ih =>
    intro k fuel hke hk hf
    obtain ⟨f, rfl⟩ : ∃ f, fuel = f + 1 := ⟨fuel - 1, by omega⟩
    have hP := natToString_length_le j hj0 hj
    by_cases hdiv : 10 ^ (e + 1) ∣ j
    · have hp := (whole_pick j (e + 1) k hj0 hj hke hk).1 hdiv
      simp only [shortest, hp]
      unfold render
      rw [if_pos ⟨by omega, by omega⟩]
      have : ((natToString j).length : Int).toNat - k = e + 1 := by
        rw [Int.toNat_natCast]
        omega
      rw [this]
      have hs : 0 < j / 10 ^ (e + 1) :=
        Nat.div_pos (Nat.le_of_dvd hj0 hdiv) (by positivity)
      rw [← natToString_mul_pow _ _ hs, Nat.div_mul_cancel hdiv]
    · have hp := (whole_pick j (e + 1) k hj0 hj hke hk).2 hdiv
      simp only [shortest, hp]
      exact ih (k + 1) f (by omega) (by omega) (by omega)

/-- The quotient `n / 10` of a positive integer, in units. -/
theorem div_ten_units (n : Nat) (hn : 0 < n) :
    (JsNum.div (JsNum.ofInt n) (JsNum.ofInt 10)).units
      = ((roundNearestEven (n * scale) 10 : Nat) : Int) := by
  have hs := scale_pos
  have h1 : (0 : Int) < (n : Int) * (scale : Int) := by positivity
  have h2 : (0 : Int) < (10 : Int) * (scale : Int) := by positivity
  have a1 : ((n : Int) * (scale : Int)).natAbs = n * scale := by
    rw [← Nat.cast_mul, Int.natAbs_cast]
  have a2 : ((10 : Int) * (scale : Int)).natAbs = 10 * scale := by
    rw [show ((10 : Int) * (scale : Int)) = ((10 * scale : Nat) : Int) by push_cast; rfl,
      Int.natAbs_cast]
  show ((n : Int) * (scale : Int)).sign * ((10 : Int) * (scale : Int)).sign *
      ((roundNearestEven (((n : Int) * (scale : Int)).natAbs * scale)
        ((10 : Int) * (scale : Int)).natAbs : Nat) : Int) = _
  rw [Int.sign_eq_one_of_pos h1, Int.sign_eq_one_of_pos h2, a1, a2,
    roundNearestEven_mul_right _ _ _ hs]
  simp

set_option maxRecDepth 100000 in
/-- The tenths of the integers below ten, by evaluation. -/
theorem toString_tenth_small (n : Nat) (h : n < 10) :
    JsNum.toString (JsNum.div (JsNum.ofInt n) (JsNum.ofInt 10)) = decimalTenths n := by
  interval_cases n <;> decide

/-- The conversion of a positive number. -/
theorem toString_of_pos (N : Nat) (hN : 0 < N) :
    JsNum.toString ⟨(N : Int)⟩
      = render (shortest N (decExponent N) 17 1).1 (shortest N (decExponent N) 17 1).2.1
          (shortest N (decExponent N) 17 1).2.2 := by
  unfold JsNum.toString
  have h0 : ¬ ((N : Int) = 0) := by omega
  have h1 : ¬ ((N : Int) < 0) := by omega
  simp only [h0, h1, if_false, Int.natAbs_cast, List.nil_append]

/-- For `n < 10 ^ 15`, the template literal prints `n / 10` as its exact decimal. -/
theorem toString_tenth (n : Nat) (h : n < 10 ^ 15) :
    JsNum.toString (JsNum.div (JsNum.ofInt n) (JsNum.ofInt 10)) = decimalTenths n := by
  by_cases hsmall : n < 10
  · exact toString_tenth_small n hsmall
  have hn : 0 < n := by omega
  have hu := div_ten_units n hn
  have hx : JsNum.div (JsNum.ofInt n) (JsNum.ofInt 10)
      = ⟨((roundNearestEven (n * scale) 10 : Nat) : Int)⟩ := by
    cases hd : JsNum.div (JsNum.ofInt n) (JsNum.ofInt 10) with
    | mk u =>
      rw [hd] at hu
      simp only at hu
      rw [hu]
  rw [hx]
  obtain ⟨j, r, hjr, hr⟩ : ∃ j r, n = 10 * j + r ∧ r < 10 := ⟨n / 10, n % 10, by omega, by omega⟩
  have hj0 : 0 < j := by omega
  have hj : j < 10 ^ 14 := by omega
  have hP := natToString_length_le j hj0 hj
  have hlp := natToString_length_pos j
  have hs := scale_pos
  have hdivn : n / 10 = j := by omega
  have hmodn : n % 10 = r := by omega
  subst hjr
  by_cases hr0 : r = 0
  · subst hr0
    have hN : roundNearestEven ((10 * j + 0) * scale) 10 = j * scale := by
      rw [Nat.add_zero]
      exact tenth_exact j hj
    rw [hN, toString_of_pos _ (Nat.mul_pos hj0 hs)]
    have hdec : decExponent (j * scale) = ((natToString j).length : Int) := by
      unfold decExponent
      rw [if_pos (Nat.le_mul_of_pos_left _ hj0), Nat.mul_div_cancel _ hs]
    rw [hdec, whole_render j hj0 hj ((natToString j).length - 1) 1 17 (by omega) (by omega)
      (by omega)]
    unfold decimalTenths
    rw [hdivn, if_pos hmodn]
    simp
  · have hr1 : 0 < r := by omega
    obtain ⟨b1, b2⟩ := tenth_between j r hj hr1 hr
    have hnone := fun k hk => tenths_pick_none j r k hj0 hj hr1 hr hk
    have hsome := tenths_pick_some j r hj0 hj hr1 hr
    generalize roundNearestEven ((10 * j + r) * scale) 10 = N at b1 b2 hnone hsome ⊢
    have hNpos : 0 < N := by omega
    have hNS : N / scale = j := Nat.div_eq_of_lt_le (le_of_lt b1) b2
    have hSle : scale ≤ N := by
      have : 1 * scale ≤ j * scale := Nat.mul_le_mul_right _ hj0
      omega
    rw [toString_of_pos _ hNpos]
    have hdec : decExponent N = ((natToString j).length : Int) := by
      unfold decExponent
      rw [if_pos hSle, hNS]
    rw [hdec]
    have hsh := shortest_skip N ((natToString j).length : Int) ((natToString j).length : Int)
      (10 * j + r) (natToString j).length 1 17
      (fun i hi => hnone (1 + i) (by omega))
      (by rw [Nat.add_comm 1]; exact hsome) (by omega)
    rw [hsh]
    simp only
    unfold render decimalTenths
    rw [if_neg (by push_cast; omega), if_pos ⟨by omega, by omega⟩, Int.toNat_natCast,
      natToString_mul_ten_add j r hj0 hr, hdivn, hmodn, if_neg hr0, natToString_small r hr]
    simp


/-- The quotient `v / 1.5` of a positive integer, in units. -/
theorem div_onePointFive_units (v : Nat) (hv : 0 < v) :
    (JsNum.div (JsNum.ofInt v) JsNum.onePointFive).units
      = ((roundNearestEven (2 * v * scale) 3 : Nat) : Int) := by
  have hs := scale_pos
  have hc : 0 < 2 ^ 1073 := by positivity
  have h1 : (0 : Int) < (v : Int) * (scale : Int) := by positivity
  have h2 : (0 : Int) < ((3 * 2 ^ 1073 : Nat) : Int) := by positivity
  have a1 : ((v : Int) * (scale : Int)).natAbs = v * scale := by
    rw [← Nat.cast_mul, Int.natAbs_cast]
  have hS : scale = 2 * 2 ^ 1073 := by
    unfold scale
    rw [show (1074 : Nat) = 1073 + 1 from rfl, pow_succ]
    ring
  show ((v : Int) * (scale : Int)).sign * (((3 * 2 ^ 1073 : Nat) : Int)).sign *
      ((roundNearestEven (((v : Int) * (scale : Int)).natAbs * scale)
        (((3 * 2 ^ 1073 : Nat) : Int)).natAbs : Nat) : Int) = _
  rw [Int.sign_eq_one_of_pos h1, Int.sign_eq_one_of_pos h2, a1, Int.natAbs_cast]
  have e : v * scale * scale = 2 * v * scale * 2 ^ 1073 := by
    conv_lhs => rw [hS]
    rw [hS]
    ring
  rw [e, roundNearestEven_mul_right _ _ _ hc]
  simp

/-- From 150 upwards the width is exactly 100. -/
theorem barWidth_clamped (v : Nat) (h1 : 150 ≤ v) (h2 : v < 10 ^ 14) :
    barWidth (JsNum.ofInt v) = JsNum.ofInt 100 := by
  have hs := scale_pos
  have hu := div_onePointFive_units v (by omega)
  have hlt : 2 * v * scale / 3 < 2 ^ 1121 := by
    have h3 : 2 * v * scale / 3 ≤ v * scale := by
      rw [Nat.div_le_iff_le_mul_add_pred (by norm_num)]
      have : 2 * v * scale = 2 * (v * scale) := by ring
      omega
    have := scale_mul_lt v (by omega)
    omega
  obtain ⟨e1, e2⟩ := roundNearestEven_error (2 * v * scale) 3 (by norm_num) hlt
  have hge : 100 * scale ≤ roundNearestEven (2 * v * scale) 3 := by
    rcases Nat.eq_or_lt_of_le h1 with h | h
    · subst h
      have := roundNearestEven_exact 100 3 (by norm_num) (by norm_num)
      rw [show 2 * 150 * scale = 100 * scale * 3 by ring, this]
    · have h4 : 151 * scale ≤ v * scale := Nat.mul_le_mul_right _ h
      have h5 : 2 * v * scale = 2 * (v * scale) := by ring
      rw [h5] at e1 e2 ⊢
      generalize roundNearestEven (2 * (v * scale)) 3 = R at e1 e2 ⊢
      generalize v * scale = X at e1 e2 h4
      omega
  unfold barWidth JsNum.min
  rw [if_pos]
  rw [hu]
  show (100 : Int) * (scale : Int) ≤ _
  exact_mod_cast hge

/-- On the multiples of three up to 150 the width is exactly two thirds of the value. -/
theorem barWidth_multiple_of_three (i : Nat) (h : i ≤ 50) :
    barWidth (JsNum.ofInt (3 * i : Nat)) = JsNum.ofInt (2 * i : Nat) := by
  have hs := scale_pos
  rcases Nat.eq_zero_or_pos i with h0 | h0
  · subst h0
    decide
  · have hu := div_onePointFive_units (3 * i) (by omega)
    have hex := roundNearestEven_exact (2 * i) 3 (by norm_num)
      (lt_of_le_of_lt (by omega : 2 * i ≤ 100) (by norm_num))
    rw [show 2 * (3 * i) * scale = 2 * i * scale * 3 by ring, hex] at hu
    have hd : JsNum.div (JsNum.ofInt (3 * i : Nat)) JsNum.onePointFive
        = JsNum.ofInt (2 * i : Nat) := by
      cases hd : JsNum.div (JsNum.ofInt (3 * i : Nat)) JsNum.onePointFive with
      | mk u =>
        rw [hd] at hu
        simp only at hu
        rw [hu]
        unfold JsNum.ofInt
        push_cast
        rfl
    unfold barWidth JsNum.min
    rw [hd]
    by_cases hc : (JsNum.ofInt 100).units ≤ (JsNum.ofInt (2 * i : Nat)).units
    · rw [if_pos hc]
      have h100 : (100 : Int) * (scale : Int) ≤ ((2 * i : Nat) : Int) * (scale : Int) := hc
      have : (100 : Int) ≤ ((2 * i : Nat) : Int) :=
        le_of_mul_le_mul_right h100 (by exact_mod_cast hs)
      have hi : i = 50 := by omega
      subst hi
      rfl
    · rw [if_neg hc]

/-! ### Stat bars -/

/-- C1 (amended): for every stat value the width of the bar is at most 100, and for every
non-negative stat value it lies in the closed interval from 0 to 100. -/
theorem barWidth_range (value : JsNum) :
    (barWidth value).toRat ≤ 100 ∧ (0 ≤ value.toRat → 0 ≤ (barWidth value).toRat) := by
  have h100 : (JsNum.ofInt 100).toRat = 100 := by rw [JsNum.toRat_ofInt]; norm_num
  constructor
  · rw [← h100, JsNum.toRat_le_iff]
    unfold barWidth JsNum.min
    split <;> omega
  · intro hv
    rw [JsNum.toRat_nonneg_iff] at hv ⊢
    have hd : 0 ≤ (JsNum.div value JsNum.onePointFive).units :=
      JsNum.div_units_nonneg _ _ hv (Int.ofNat_nonneg _)
    have hc : 0 ≤ (JsNum.ofInt 100).units :=
      Int.mul_nonneg (by norm_num) (Int.ofNat_nonneg _)
    unfold barWidth JsNum.min
    split
    · exact hc
    · exact hd

/-- C1 (witness): the stat value 60. -/
theorem barWidth_range_witness :
    0 ≤ (JsNum.ofInt 60).toRat ∧ 0 ≤ (barWidth (JsNum.ofInt 60)).toRat ∧
      (barWidth (JsNum.ofInt 60)).toRat ≤ 100 :=
  ⟨by rw [JsNum.toRat_ofInt]; norm_num,
    (barWidth_range (JsNum.ofInt 60)).2 (by rw [JsNum.toRat_ofInt]; norm_num),
    (barWidth_range (JsNum.ofInt 60)).1⟩

set_option maxRecDepth 100000 in
/-- C1 (counterexample): the stat value -3 gives the width -2, which is not in the closed
interval from 0 to 100. -/
theorem barWidth_neg_three :
    barWidth (JsNum.ofInt (-3)) = JsNum.ofInt (-2) ∧
    ¬ (0 ≤ (barWidth (JsNum.ofInt (-3))).toRat ∧
        (barWidth (JsNum.ofInt (-3))).toRat ≤ 100) := by
  have h : barWidth (JsNum.ofInt (-3)) = JsNum.ofInt (-2) := by decide
  refine ⟨h, ?_⟩
  rw [h, JsNum.toRat_ofInt]
  norm_num

set_option maxRecDepth 100000 in
/-- C2: the bar of the entry `(stat, value)` has the width `Math.min(100, value / 1.5)` and
a label showing the raw value; the value 255 gives the width 100 and 60 gives 40.  The
width is exactly 100 from the value 150 upwards, and exactly two thirds of the value for
the multiples of three up to 150. -/
theorem statBar_width_and_label (stat : JsString) (value : JsNum) (v : Nat) :
    statBar (stat, value) = barOpen ++
        (js "<span class=\"stats-label\">" ++ stat
          ++ js ":</span>\n                                            <span>"
          ++ JsNum.toString value ++ js "</span>")
        ++ barStyle
        ++ JsNum.toString (JsNum.min (JsNum.ofInt 100) (JsNum.div value JsNum.onePointFive))
        ++ barAria ++ JsNum.toString value ++ barClose ∧
    barWidth (JsNum.ofInt 255) = JsNum.ofInt 100 ∧
    barWidth (JsNum.ofInt 60) = JsNum.ofInt 40 ∧
    JsNum.toString (barWidth (JsNum.ofInt 255)) = js "100" ∧
    JsNum.toString (barWidth (JsNum.ofInt 60)) = js "40" ∧
    JsNum.toString (JsNum.ofInt 255) = js "255" ∧
    (150 ≤ v → v < 10 ^ 14 → barWidth (JsNum.ofInt v) = JsNum.ofInt 100) ∧
    (v ≤ 50 → barWidth (JsNum.ofInt (3 * v : Nat)) = JsNum.ofInt (2 * v : Nat)) := by
  refine ⟨rfl, by decide, by decide, by decide, by decide, by decide, ?_, ?_⟩
  · exact barWidth_clamped v
  · exact barWidth_multiple_of_three v

/-- C2 (witness): the values 255 and 60. -/
theorem statBar_width_and_label_witness :
    (150 : Nat) ≤ 255 ∧ (255 : Nat) < 10 ^ 14 ∧
    barWidth (JsNum.ofInt (255 : Nat)) = JsNum.ofInt 100 ∧
    (20 : Nat) ≤ 50 ∧
    barWidth (JsNum.ofInt (3 * 20 : Nat)) = JsNum.ofInt (2 * 20 : Nat) :=
  ⟨by norm_num, by norm_num,
    (statBar_width_and_label [] (JsNum.ofInt 255) 255).2.2.2.2.2.2.1 (by norm_num)
      (by norm_num),
    by norm_num,
    (statBar_width_and_label [] (JsNum.ofInt 60) 20).2.2.2.2.2.2.2 (by norm_num)⟩

/-! ### Height and weight -/

set_option maxRecDepth 100000 in
/-- C4 (counterexample): the height `2 ^ 60` is displayed as `115292150460684700 m`, not as
the exact decimal `115292150460684697.6` of a tenth of it. -/
theorem heightRender_two_pow_sixty :
    heightRender (JsNum.ofInt (2 ^ 60)) = js "115292150460684700 m" ∧
    decimalTenths (2 ^ 60) = js "115292150460684697.6" ∧
    heightRender (JsNum.ofInt (2 ^ 60)) ≠ decimalTenths (2 ^ 60) ++ js " m" := by
  have h1 : heightRender (JsNum.ofInt (2 ^ 60)) = js "115292150460684700 m" := by decide
  have h2 : decimalTenths (2 ^ 60) = js "115292150460684697.6" := by decide
  refine ⟨h1, h2, ?_⟩
  rw [h1, h2]
  decide

/-- C4 (amended): for every non-negative integer raw value below `10 ^ 15` (zero and the
values not divisible by 10 included) the height renderer returns the exact decimal of a
tenth of the value followed by ` m`, and the weight renderer the same followed by ` kg`;
the height 7 is displayed as `0.7 m`. -/
theorem heightRender_weightRender_exact (n : Nat) (h : n < 10 ^ 15) :
    heightRender (JsNum.ofInt n) = decimalTenths n ++ js " m" ∧
    weightRender (JsNum.ofInt n) = decimalTenths n ++ js " kg" ∧
    heightRender (JsNum.ofInt 7) = js "0.7 m" ∧
    heightRender (JsNum.ofInt 0) = js "0 m" := by
  have h7 := toString_tenth 7 (by norm_num)
  have h0 := toString_tenth 0 (by norm_num)
  unfold heightRender weightRender
  rw [toString_tenth n h]
  refine ⟨rfl, rfl, ?_, ?_⟩
  · rw [show JsNum.ofInt 7 = JsNum.ofInt ((7 : Nat) : Int) from rfl, h7]
    decide
  · rw [show JsNum.ofInt 0 = JsNum.ofInt ((0 : Nat) : Int) from rfl, h0]
    decide

/-- C4 (witness): the height 7. -/
theorem heightRender_weightRender_exact_witness :
    (7 : Nat) < 10 ^ 15 ∧
    heightRender (JsNum.ofInt (7 : Nat)) = decimalTenths 7 ++ js " m" ∧
    weightRender (JsNum.ofInt (7 : Nat)) = decimalTenths 7 ++ js " kg" :=
  ⟨by norm_num, (heightRender_weightRender_exact 7 (by norm_num)).1,
    (heightRender_weightRender_exact 7 (by norm_num)).2.1⟩

/-! ### Names -/

/-- C3: for every name, the empty one included, the name renderer returns the upper-cased
first code unit followed by the remainder unchanged; `pikachu` gives `Pikachu`, the empty
name gives the empty string, and a name whose first character is its own upper case is
returned unchanged. -/
theorem nameRender_capitalizes (toUpperCase : JsString → JsString) (s : JsString)
    (hEmpty : toUpperCase [] = []) (hp : toUpperCase (js "p") = js "P") :
    nameRender toUpperCase s = toUpperCase (s.take 1) ++ s.drop 1 ∧
    nameRender toUpperCase (js "pikachu") = js "Pikachu" ∧
    nameRender toUpperCase (js "") = js "" ∧
    (toUpperCase (s.take 1) = s.take 1 → nameRender toUpperCase s = s) := by
  have hgen : ∀ t : JsString, nameRender toUpperCase t = toUpperCase (t.take 1) ++ t.drop 1 := by
    intro t
    simp [nameRender, charAt, slice]
  refine ⟨hgen s, ?_, ?_, ?_⟩
  · rw [hgen]
    have h1 : (js "pikachu").take 1 = js "p" := by decide
    rw [h1, hp]
    decide
  · rw [hgen]
    have h1 : (js "").take 1 = [] := by decide
    have h2 : (js "").drop 1 = [] := by decide
    have h3 : js "" = [] := by decide
    rw [h1, h2, hEmpty, h3]
    rfl
  · intro h
    rw [hgen, h, List.take_append_drop]

/-- C3 (witness): the renderer with an ASCII upper-casing function. -/
theorem nameRender_capitalizes_witness :
    asciiUpper [] = [] ∧ asciiUpper (js "p") = js "P" ∧
    nameRender asciiUpper (js "pikachu") = js "Pikachu" ∧
    nameRender asciiUpper (js "Pikachu") = js "Pikachu" :=
  ⟨by decide, by decide,
    (nameRender_capitalizes asciiUpper (js "Pikachu") (by decide) (by decide)).2.1,
    (nameRender_capitalizes asciiUpper (js "Pikachu") (by decide) (by decide)).2.2.2
      (by decide)⟩

/-! ### clearCache -/

/-- C5: whatever the outcome of the cache-clear request (a response with any status, or a
failed request), once it has completed the button is enabled and labelled
`Limpiar Caché`. -/
theorem clearCache_restores_button (o : Outcome CacheClearResult) (s : State) :
    (clearCache_done o s).clearCacheBtn
        = { disabled := false, content := Content.text (js "Limpiar Caché") } ∧
    (clearCache_done o (clearCache s)).clearCacheBtn.disabled = false ∧
    (clearCache_done o (clearCache s)).clearCacheBtn.content
        = Content.text (js "Limpiar Caché") := by
  cases o <;> exact ⟨rfl, rfl, rfl⟩

/-- C6: a cache-clear response with status `success` shows the success notification and
then issues exactly one request, the list fetch `GET /api/pokemon` with `limit` 150 and
`offset` 0. -/
theorem clearCache_success_refetches (r : CacheClearResult) (s : State)
    (h : r.status = js "success") :
    (clearCache_done (Outcome.response r) s).log
        = s.log ++ [Effect.showToast successToast, Effect.ajax listRequest] ∧
    (clearCache_done (Outcome.response r) s).requests = s.requests ++ [listRequest] ∧
    listRequest.url = js "/api/pokemon" ∧ listRequest.method = js "GET" ∧
    listRequest.data = [(js "limit", JsNum.ofInt 150), (js "offset", JsNum.ofInt 0)] := by
  refine ⟨?_, ?_, rfl, rfl, rfl⟩
  · simp [clearCache_done, clearCache_success, h, clearCache_complete, loadPokemonData,
      State.send]
  · simp [clearCache_done, clearCache_success, h, clearCache_complete, loadPokemonData,
      State.send, State.requests, List.filterMap_append]

/-- C6 (witness): a `success` response on a page with nothing else going on. -/
theorem clearCache_success_refetches_witness :
    (CacheClearResult.mk (js "success") none).status = js "success" ∧
    (clearCache_done (Outcome.response (CacheClearResult.mk (js "success") none)) blankPage).log
      = blankPage.log ++ [Effect.showToast successToast, Effect.ajax listRequest] :=
  ⟨rfl, (clearCache_success_refetches (CacheClearResult.mk (js "success") none) blankPage rfl).1⟩

/-! ### The guard on the cache-clear request -/

/-- The function `initPokemonTable` sends and completes no request. -/
theorem initPokemonTable_inFlight (toUpperCase : JsString → JsString)
    (d : List PokemonSummary) (s : State) :
    (initPokemonTable toUpperCase d s).inFlight = s.inFlight := by
  unfold initPokemonTable
  split <;> rfl

/-- The function `initPokemonTable` leaves the button alone. -/
theorem initPokemonTable_clearCacheBtn (toUpperCase : JsString → JsString)
    (d : List PokemonSummary) (s : State) :
    (initPokemonTable toUpperCase d s).clearCacheBtn = s.clearCacheBtn := by
  unfold initPokemonTable
  split <;> rfl

/-- Completing the list request sends no request. -/
theorem loadPokemonData_done_inFlight (toUpperCase : JsString → JsString) (t : JsString)
    (o : Outcome ListResponse) (s : State) :
    (loadPokemonData_done toUpperCase t o s).inFlight = s.inFlight := by
  cases o with
  | response r =>
    simp only [loadPokemonData_done, loadPokemonData_success, initPokemonTable_inFlight]
  | failure e => rfl

/-- Completing the list request leaves the button alone. -/
theorem loadPokemonData_done_clearCacheBtn (toUpperCase : JsString → JsString) (t : JsString)
    (o : Outcome ListResponse) (s : State) :
    (loadPokemonData_done toUpperCase t o s).clearCacheBtn = s.clearCacheBtn := by
  cases o with
  | response r =>
    simp only [loadPokemonData_done, loadPokemonData_success, initPokemonTable_clearCacheBtn]
  | failure e => rfl

/-- Completing a detail request sends no request. -/
theorem loadPokemonDetails_done_inFlight (toUpperCase : JsString → JsString)
    (o : Outcome PokemonDetail) (s : State) :
    (loadPokemonDetails_done toUpperCase o s).inFlight = s.inFlight := by
  cases o <;> rfl

/-- Completing a detail request leaves the button alone. -/
theorem loadPokemonDetails_done_clearCacheBtn (toUpperCase : JsString → JsString)
    (o : Outcome PokemonDetail) (s : State) :
    (loadPokemonDetails_done toUpperCase o s).clearCacheBtn = s.clearCacheBtn := by
  cases o <;> rfl

/-- Completing the cache-clear request sends at most a list request. -/
theorem clearCache_done_inFlight (o : Outcome CacheClearResult) (s : State) :
    (clearCache_done o s).inFlight = s.inFlight ∨
      (clearCache_done o s).inFlight = s.inFlight ++ [Pending.list] := by
  cases o with
  | response r =>
    by_cases hs : r.status = js "success"
    · right
      simp [clearCache_done, clearCache_success, hs, clearCache_complete, loadPokemonData,
        State.send]
    · left
      simp [clearCache_done, clearCache_success, hs, clearCache_complete]
  | failure e => exact Or.inl rfl

/-- Sending another kind of request does not change the count of cache-clear requests. -/
theorem count_clear_append_other (l : List Pending) (p : Pending) (hp : p ≠ Pending.clear) :
    (l ++ [p]).count Pending.clear = l.count Pending.clear := by
  rw [List.count_append, List.count_singleton]
  simp [hp]

/-- A cache-clear request in flight after another kind of request was sent was in flight before. -/
theorem mem_clear_append_other (l : List Pending) (p : Pending) (hp : p ≠ Pending.clear)
    (h : Pending.clear ∈ l ++ [p]) : Pending.clear ∈ l := by
  rcases List.mem_append.mp h with h | h
  · exact h
  · exact absurd (List.mem_singleton.mp h).symm hp

/-- Every event preserves the guard. -/
theorem clearGuard_step (toUpperCase : JsString → JsString) (s : State) (e : Event)
    (h : ClearGuard s) : ClearGuard (step toUpperCase s e) := by
  obtain ⟨hc, hd⟩ := h
  cases e with
  | clickViewDetails pokemonId =>
    simp only [step]
    split
    · refine ⟨?_, fun hm => ?_⟩
      · show (s.inFlight ++ [Pending.detail pokemonId]).count Pending.clear ≤ 1
        rw [count_clear_append_other _ _ (by simp)]
        exact hc
      · exact hd (mem_clear_append_other _ _ (by simp) hm)
    · exact ⟨hc, hd⟩
  | clickClearCache =>
    simp only [step]
    split
    · rename_i hcond
      have hnot : Pending.clear ∉ s.inFlight := by
        intro hm
        have := hd hm
        rw [hcond.2] at this
        exact Bool.noConfusion this
      refine ⟨?_, fun _ => rfl⟩
      show (s.inFlight ++ [Pending.clear]).count Pending.clear ≤ 1
      rw [List.count_append, List.count_eq_zero_of_not_mem hnot]
      simp
    · exact ⟨hc, hd⟩
  | listDone loadTime o =>
    simp only [step]
    split
    · refine ⟨?_, fun hm => ?_⟩
      · rw [loadPokemonData_done_inFlight]
        show (s.inFlight.erase Pending.list).count Pending.clear ≤ 1
        rw [List.count_erase_of_ne (by simp)]
        exact hc
      · rw [loadPokemonData_done_inFlight] at hm
        rw [loadPokemonData_done_clearCacheBtn]
        exact hd (List.mem_of_mem_erase hm)
    · exact ⟨hc, hd⟩
  | detailDone pokemonId o =>
    simp only [step]
    split
    · refine ⟨?_, fun hm => ?_⟩
      · rw [loadPokemonDetails_done_inFlight]
        show (s.inFlight.erase (Pending.detail pokemonId)).count Pending.clear ≤ 1
        rw [List.count_erase_of_ne (by simp)]
        exact hc
      · rw [loadPokemonDetails_done_inFlight] at hm
        rw [loadPokemonDetails_done_clearCacheBtn]
        exact hd (List.mem_of_mem_erase hm)
    · exact ⟨hc, hd⟩
  | clearDone o =>
    simp only [step]
    split
    · have hcount : (s.inFlight.erase Pending.clear).count Pending.clear = 0 := by
        rw [List.count_erase_self]
        omega
      have hnot : Pending.clear ∉ s.inFlight.erase Pending.clear :=
        List.count_eq_zero.mp hcount
      rcases clearCache_done_inFlight o { s with inFlight := s.inFlight.erase Pending.clear }
        with hfl | hfl
      · refine ⟨?_, fun hm => ?_⟩
        · rw [hfl]
          show (s.inFlight.erase Pending.clear).count Pending.clear ≤ 1
          omega
        · rw [hfl] at hm
          exact absurd hm hnot
      · refine ⟨?_, fun hm => ?_⟩
        · rw [hfl, count_clear_append_other _ _ (by simp)]
          show (s.inFlight.erase Pending.clear).count Pending.clear ≤ 1
          omega
        · rw [hfl] at hm
          exact absurd (mem_clear_append_other _ _ (by simp) hm) hnot
    · exact ⟨hc, hd⟩

/-- Every sequence of events preserves the guard. -/
theorem clearGuard_run (toUpperCase : JsString → JsString) (es : List Event) (s : State)
    (h : ClearGuard s) : ClearGuard (run toUpperCase s es) := by
  induction es generalizing s with
  | nil => exact h
  | cons e es ih => exact ih _ (clearGuard_step toUpperCase s e h)

/-- The guard holds once the page is ready. -/
theorem clearGuard_ready (s0 : State) (h0 : Pending.clear ∉ s0.inFlight) :
    ClearGuard (ready s0) := by
  refine ⟨?_, fun hm => ?_⟩
  · show (s0.inFlight ++ [Pending.list]).count Pending.clear ≤ 1
    rw [count_clear_append_other _ _ (by simp), List.count_eq_zero_of_not_mem h0]
    omega
  · exact absurd (mem_clear_append_other _ _ (by simp) hm) h0

/-- C7: after any sequence of clicks and answers on a ready page, at most one cache-clear
request is in flight, and while one is in flight the button is disabled and a click on it
changes nothing. -/
theorem clear_request_never_doubled (toUpperCase : JsString → JsString) (s0 : State)
    (es : List Event) (h0 : Pending.clear ∉ s0.inFlight) :
    (run toUpperCase (ready s0) es).inFlight.count Pending.clear ≤ 1 ∧
    (Pending.clear ∈ (run toUpperCase (ready s0) es).inFlight →
      (run toUpperCase (ready s0) es).clearCacheBtn.disabled = true ∧
      step toUpperCase (run toUpperCase (ready s0) es) Event.clickClearCache
        = run toUpperCase (ready s0) es) := by
  have hg := clearGuard_run toUpperCase es (ready s0) (clearGuard_ready s0 h0)
  refine ⟨hg.1, fun hm => ⟨hg.2 hm, ?_⟩⟩
  have hd := hg.2 hm
  simp only [step]
  rw [if_neg]
  rw [hd]
  simp

/-- C7 (witness): two clicks in a row on a fresh page. -/
theorem clear_request_never_doubled_witness :
    Pending.clear ∉ blankPage.inFlight ∧
    (run asciiUpper (ready blankPage)
      [Event.clickClearCache, Event.clickClearCache]).inFlight.count Pending.clear ≤ 1 :=
  ⟨by decide,
    (clear_request_never_doubled asciiUpper blankPage
      [Event.clickClearCache, Event.clickClearCache] (by decide)).1⟩

/-! ### Failure handlers -/

/-- C8: the handlers of a failed list fetch, of a failed detail fetch, of a failed
cache-clear request and of a cache-clear response whose status is not `success` run to
their end, issue no request and leave the requests in flight as they are. -/
theorem failure_handlers_send_nothing (toUpperCase : JsString → JsString) (loadTime : JsString)
    (error : JqXHR) (r : CacheClearResult) (s : State) (h : r.status ≠ js "success") :
    ((loadPokemonData_done toUpperCase loadTime (Outcome.failure error) s).log
        = s.log ++ [Effect.consoleError (js "Error al cargar los datos:") error] ∧
      (loadPokemonData_done toUpperCase loadTime (Outcome.failure error) s).requests
        = s.requests ∧
      (loadPokemonData_done toUpperCase loadTime (Outcome.failure error) s).inFlight
        = s.inFlight ∧
      (loadPokemonData_done toUpperCase loadTime (Outcome.failure error) s).cacheStatus
        = Content.text (js "Error al cargar los datos")) ∧
    ((loadPokemonDetails_done toUpperCase (Outcome.failure error) s).log
        = s.log ++ [Effect.consoleError (js "Error al cargar los detalles:") error] ∧
      (loadPokemonDetails_done toUpperCase (Outcome.failure error) s).requests = s.requests ∧
      (loadPokemonDetails_done toUpperCase (Outcome.failure error) s).inFlight = s.inFlight ∧
      (loadPokemonDetails_done toUpperCase (Outcome.failure error) s).pokemonModalBody
        = Content.html detailErrorBody) ∧
    ((clearCache_done (Outcome.failure error) s).log
        = s.log ++ [Effect.consoleError (js "Error al limpiar la caché:") error,
            Effect.alert (js "Error al limpiar la caché")] ∧
      (clearCache_done (Outcome.failure error) s).requests = s.requests ∧
      (clearCache_done (Outcome.failure error) s).inFlight = s.inFlight ∧
      (clearCache_done (Outcome.failure error) s).clearCacheBtn.disabled = false) ∧
    ((clearCache_done (Outcome.response r) s).log
        = s.log ++ [Effect.alert (js "Error al limpiar la caché: " ++
            r.message.getD (js "undefined"))] ∧
      (clearCache_done (Outcome.response r) s).requests = s.requests ∧
      (clearCache_done (Outcome.response r) s).inFlight = s.inFlight ∧
      (clearCache_done (Outcome.response r) s).clearCacheBtn.disabled = false) := by
  refine ⟨⟨rfl, ?_, rfl, rfl⟩, ⟨rfl, ?_, rfl, rfl⟩, ⟨?_, ?_, rfl, rfl⟩, ?_⟩
  · simp [loadPokemonData_done, loadPokemonData_error, State.requests, List.filterMap_append]
  · simp [loadPokemonDetails_done, loadPokemonDetails_error, State.requests,
      List.filterMap_append]
  · simp [clearCache_done, clearCache_error, clearCache_complete]
  · simp [clearCache_done, clearCache_error, clearCache_complete, State.requests,
      List.filterMap_append]
  · simp [clearCache_done, clearCache_success, h, clearCache_complete, State.requests,
      List.filterMap_append]

/-- C8 (witness): a server-side failure of the cache clearing on a fresh page. -/
theorem failure_handlers_send_nothing_witness :
    (CacheClearResult.mk (js "error") (some (js "boom"))).status ≠ js "success" ∧
    (clearCache_done (Outcome.response (CacheClearResult.mk (js "error") (some (js "boom"))))
      blankPage).requests = blankPage.requests :=
  ⟨by decide,
    (failure_handlers_send_nothing asciiUpper (js "12.34") (JqXHR.mk 500 (js "error"))
      (CacheClearResult.mk (js "error") (some (js "boom"))) blankPage (by decide)).2.2.2.2.1⟩

/-! ### The modal body -/

set_option maxRecDepth 100000 in
/-- The numbers printed in the bars of the example record. -/
theorem pikachu_bar_numbers :
    JsNum.toString (JsNum.ofInt 35) = js "35" ∧
    JsNum.toString (barWidth (JsNum.ofInt 35)) = js "23.333333333333332" ∧
    JsNum.toString (JsNum.ofInt 90) = js "90" ∧
    JsNum.toString (barWidth (JsNum.ofInt 90)) = js "60" := by
  refine ⟨by decide, by decide, by decide, by decide⟩

/-- C9: the modal body of a detail response has, in its abilities cell, the abilities
joined by a comma and a space (nothing for no ability, the ability itself for one, each
further one after `, `), or `N/A` when the abilities are absent; it has a stats section
exactly when the stats mapping is present, and the section is the header, then one
labelled bar per entry of the mapping, in order and with nothing between them, then the
footer. -/
theorem modalContent_abilities_and_stats (toUpperCase : JsString → JsString)
    (pokemon : PokemonDetail) (s : State) :
    (loadPokemonDetails_done toUpperCase (Outcome.response pokemon) s).pokemonModalBody
      = Content.html (modalHead pokemon ++ abilitiesCell pokemon.abilities ++ modalMiddle
          ++ statsSection pokemon.stats ++ modalTail) ∧
    (pokemon.abilities = none → abilitiesCell pokemon.abilities = [78, 47, 65]) ∧
    (pokemon.abilities = some [] → abilitiesCell pokemon.abilities = []) ∧
    (∀ x, pokemon.abilities = some [x] → abilitiesCell pokemon.abilities = x) ∧
    (∀ x y rest, pokemon.abilities = some (x :: y :: rest) →
      abilitiesCell pokemon.abilities = x ++ [44, 32] ++ abilitiesCell (some (y :: rest))) ∧
    (∀ a, pokemon.abilities = some a →
      abilitiesCell pokemon.abilities = List.intercalate [44, 32] a) ∧
    (statsSection pokemon.stats ≠ [] ↔ pokemon.stats ≠ none) ∧
    (∀ m, pokemon.stats = some m →
      statsSection pokemon.stats
        = statsHeader ++ List.foldr (fun bar acc => bar ++ acc) [] (statBars m) ++ statsFooter ∧
      (statBars m).length = m.length ∧
      ∀ i, ∀ h : i < m.length, (statBars m)[i]? = some (barOpen ++
        (js "<span class=\"stats-label\">" ++ (m.get ⟨i, h⟩).1
          ++ js ":</span>\n                                            <span>"
          ++ JsNum.toString (m.get ⟨i, h⟩).2 ++ js "</span>")
        ++ barStyle ++ JsNum.toString (barWidth (m.get ⟨i, h⟩).2) ++ barAria
        ++ JsNum.toString (m.get ⟨i, h⟩).2 ++ barClose)) := by
  have hsep : js ", " = [44, 32] := by decide
  have hfold : ∀ l : List JsString,
      join [] l = List.foldr (fun bar acc => bar ++ acc) [] l := by
    intro l
    induction l with
    | nil => rfl
    | cons b l ih =>
      cases l with
      | nil => simp [join, List.intercalate]
      | cons c l =>
        have : join [] (b :: c :: l) = b ++ join [] (c :: l) := by
          simp [join, List.intercalate]
        rw [this, ih]
        rfl
  refine ⟨rfl, ?_, ?_, ?_, ?_, ?_, ?_, ?_⟩
  · intro ha
    rw [ha]
    decide
  · intro ha
    rw [ha]
    rfl
  · intro x ha
    rw [ha]
    simp [abilitiesCell, join, List.intercalate]
  · intro x y rest ha
    rw [ha]
    simp [abilitiesCell, join, List.intercalate, hsep]
  · intro a ha
    rw [ha]
    simp [abilitiesCell, join, hsep]
  · cases hst : pokemon.stats with
    | none => simp [statsSection]
    | some m =>
      have hh : statsHeader ≠ [] := by decide
      simp only [statsSection, ne_eq, not_false_eq_true, iff_true, reduceCtorEq]
      intro hnil
      have h1 := List.append_eq_nil.mp hnil
      have h2 := List.append_eq_nil.mp h1.1
      exact hh h2.1
  · intro m hm
    rw [hm]
    refine ⟨?_, by simp [statBars], ?_⟩
    · simp only [statsSection, hfold]
    · intro i h
      simp [statBars, List.getElem?_map, List.getElem?_eq_getElem h, statBar, statLabel]

set_option maxRecDepth 100000 in
/-- C9 (witness): a detail record with two abilities and two stats: the abilities cell reads
`static, lightning-rod` and the stats section holds the two bars, in order. -/
theorem modalContent_abilities_and_stats_witness :
    pikachuDetail.abilities = some [js "static", js "lightning-rod"] ∧
    abilitiesCell pikachuDetail.abilities = js "static, lightning-rod" ∧
    pikachuDetail.stats = some [(js "hp", JsNum.ofInt 35), (js "speed", JsNum.ofInt 90)] ∧
    statsSection pikachuDetail.stats = statsHeader
      ++ (barOpen
        ++ (js "<span class=\"stats-label\">" ++ js "hp"
          ++ js ":</span>\n                                            <span>"
          ++ js "35" ++ js "</span>")
        ++ barStyle ++ js "23.333333333333332" ++ barAria ++ js "35" ++ barClose)
      ++ (barOpen
        ++ (js "<span class=\"stats-label\">" ++ js "speed"
          ++ js ":</span>\n                                            <span>"
          ++ js "90" ++ js "</span>")
        ++ barStyle ++ js "60" ++ barAria ++ js "90" ++ barClose)
      ++ statsFooter :=
  ⟨rfl,
    ((modalContent_abilities_and_stats asciiUpper pikachuDetail blankPage).2.2.2.2.2.1
      _ rfl).trans (by decide),
    rfl,
    ((modalContent_abilities_and_stats asciiUpper pikachuDetail blankPage).2.2.2.2.2.2.2
      _ rfl).1.trans (by
      simp only [statBars, List.map, List.foldr, statBar, statLabel, pikachu_bar_numbers.1,
        pikachu_bar_numbers.2.1, pikachu_bar_numbers.2.2.1, pikachu_bar_numbers.2.2.2,
        List.append_nil, List.append_assoc])⟩

/-! ### The table -/

/-- C10: a successful list response initialises the table with exactly the records of the
response, ordered by its first column, the id, ascending: the rows are a permutation of
the records, as many as the records, sorted by id. -/
theorem list_success_initialises_table (toUpperCase : JsString → JsString) (loadTime : JsString)
    (response : ListResponse) (s : State) :
    ∃ t : DataTable,
      (loadPokemonData_done toUpperCase loadTime (Outcome.response response) s).pokemonTable
        = some t ∧
      t.data = response.results ∧
      t.order = [(0, Direction.asc)] ∧
      t.columns.get? 0 = some (Column.num NumField.id none) ∧
      t.pageLength = 25 ∧
      t.rows.length = response.results.length ∧
      t.rows.Perm response.results ∧
      t.rows.Sorted (fun a b => a.id.units ≤ b.id.units) := by
  refine ⟨_, rfl, rfl, rfl, rfl, rfl, ?_, ?_, ?_⟩
  · exact List.length_insertionSort _ _
  · exact List.perm_insertionSort _ _
  · haveI : IsTotal PokemonSummary (fun a b => a.id.units ≤ b.id.units) :=
      ⟨fun a b => le_total _ _⟩
    haveI : IsTrans PokemonSummary (fun a b => a.id.units ≤ b.id.units) :=
      ⟨fun a b c => le_trans⟩
    exact List.sorted_insertionSort _ _

end PokeCache
